import Mathlib

/-
Verification development for the Pallet_Calc repository.

The calculation engine (pallet_calc/calculator.py) is embedded shallowly:

* Python ints become ℤ, Python floats become ℚ (exact rational arithmetic;
  binary floating-point rounding is not modelled).
* Python `//` and `%` on integers are floor division and floor modulus,
  embedded as Int.fdiv / Int.fmod.  math.floor / math.ceil on a quotient of
  numbers become Int.floor / Int.ceil of the exact rational quotient.
* Fallible code (raising ValueError) becomes Except CalcError; each raise
  site of the source has its own CalcError constructor, so an error "names
  the offending record" exactly when the constructor carries that record.
* Untyped dictionary input is modelled by RawVal / RawProduct / RawPallet.
  Conversions int(...) / float(...) / str(...) are modelled on integers,
  rationals, plain decimal strings (optional leading minus, digits, one
  optional fractional part) and lists.  Exotic Python forms (whitespace,
  exponents, "inf", indexing into strings) are outside the modelled input
  domain.  Python raises uncaught ZeroDivisionError / IndexError on
  zero-valued divisors and too-short dimension lists; the model folds those
  aborts into the nearest validation error, and no theorem below evaluates
  the model at such a point.
* str.upper() is modelled character-wise (pyUpper), which agrees with
  Python on the ASCII container codes involved.
* Python's sorted(...) is a stable sort; it is embedded as the stable
  insertion sort sortDescBy (descending order, since the source always
  sorts with reverse=True), processing the input left to right and placing
  each element after all earlier elements of equal or larger key.
-/

/-- Value of an untyped field of the raw input mapping.  vnone models
Python None and vlist a nested list. -/
inductive RawVal where
  | vint (n : ℤ)
  | vrat (q : ℚ)
  | vstr (s : String)
  | vnone
  | vlist (xs : List RawVal)

/-- Raw product entry: the four keys read by _load_products, each possibly
missing from the dictionary. -/
structure RawProduct where
  name : Option RawVal
  order_quantity_pcs : Option RawVal
  pcs_per_carton : Option RawVal
  carton_dimensions_cm : Option RawVal

/-- Raw pallet entry: the keys read by _load_pallet. -/
structure RawPallet where
  length_cm : Option RawVal
  width_cm : Option RawVal
  height_cm : Option RawVal
  base_height_cm : Option RawVal

/-- Parse a string of decimal digits, Nat-valued. -/
def parseDigits (s : String) : Option ℕ := s.toNat?

/-- Parse an optionally signed integer string, as Python int(str) does. -/
def parseIntString (s : String) : Option ℤ :=
  if s.startsWith "-" then (parseDigits (s.drop 1)).map (fun n => -(n : ℤ))
  else (parseDigits s).map (fun n => (n : ℤ))

/-- Parse an unsigned plain decimal string such as 12 or 12.5. -/
def parseUnsignedDecimal (s : String) : Option ℚ :=
  match s.splitOn "." with
  | [a] => (parseDigits a).map (fun n => (n : ℚ))
  | [a, b] =>
    match parseDigits a, parseDigits b with
    | some n, some f => some ((n : ℚ) + (f : ℚ) / ((10 : ℚ) ^ b.length))
    | _, _ => none
  | _ => none

/-- Parse an optionally signed plain decimal string, as Python float(str)
does on such strings. -/
def parseFloatString (s : String) : Option ℚ :=
  if s.startsWith "-" then (parseUnsignedDecimal (s.drop 1)).map Neg.neg
  else parseUnsignedDecimal s

/-- Truncation toward zero, the rounding Python int(float) applies. -/
def ratTrunc (q : ℚ) : ℤ := if q < 0 then ⌈q⌉ else ⌊q⌋

/-- Python int(value): identity on ints, truncation on floats, parsing on
integer strings; TypeError / ValueError (modelled as none) otherwise. -/
def pyInt : RawVal → Option ℤ
  | .vint n => some n
  | .vrat q => some (ratTrunc q)
  | .vstr s => parseIntString s
  | .vnone => none
  | .vlist _ => none

/-- Python float(value): identity on numbers, parsing on decimal strings;
TypeError / ValueError (modelled as none) otherwise. -/
def pyFloat : RawVal → Option ℚ
  | .vint n => some (n : ℚ)
  | .vrat q => some q
  | .vstr s => parseFloatString s
  | .vnone => none
  | .vlist _ => none

/-- Python str(value).  Only string-valued names occur in any statement
below; the rendering of the other cases is irrelevant to every theorem. -/
def pyStr : RawVal → String
  | .vstr s => s
  | .vint n => toString n
  | .vrat q => toString q
  | .vnone => "None"
  | .vlist _ => "<list>"

/-- Python value[i] for the dimension list: list indexing.  Non-list
values raise TypeError (none); a too-short list is outside the modelled
domain (Python raises an uncaught IndexError there). -/
def pyIndex : RawVal → ℕ → Option RawVal
  | .vlist xs, i => xs.get? i
  | _, _ => none

/-- Python str.upper(), character-wise (ASCII container codes only). -/
def pyUpper (s : String) : String := String.mk (s.data.map Char.toUpper)

/-- Conversion constant of the source: 1 CBM = 35.3146667 CUFT. -/
def CUFT_PER_CBM : ℚ := 353146667 / 10000000

/-- ProductSpec of the source: one validated product. -/
structure ProductSpec where
  name : String
  order_quantity_pcs : ℤ
  pcs_per_carton : ℤ
  carton_length_cm : ℚ
  carton_width_cm : ℚ
  carton_height_cm : ℚ
deriving DecidableEq

/-- cartons_required property: ceil(order_quantity_pcs / pcs_per_carton). -/
def ProductSpec.cartons_required (p : ProductSpec) : ℤ :=
  ⌈(p.order_quantity_pcs : ℚ) / (p.pcs_per_carton : ℚ)⌉

/-- carton_volume_cbm property: L·W·H / 1,000,000. -/
def ProductSpec.carton_volume_cbm (p : ProductSpec) : ℚ :=
  p.carton_length_cm * p.carton_width_cm * p.carton_height_cm / 1000000

/-- PalletSpec of the source. -/
structure PalletSpec where
  length_cm : ℚ
  width_cm : ℚ
  height_cm : ℚ
  base_height_cm : ℚ
deriving DecidableEq

/-- Error type: one constructor per raise site of calculator.py, carrying
the data interpolated into the source's message. -/
inductive CalcError where
  | invalidProduct (raw : RawProduct)
  | emptyProducts
  | invalidPallet
  | nonPositivePalletDimension
  | baseHeightNotBelowPalletHeight
  | unsupportedContainerHeight (code : String)
  | palletBaseExceedsContainer
  | cannotFitFootprint (product_name : String)
  | exceedsStackingHeight (product_name : String)
  | cannotPlaceOnPallet (product_name : String)
  | layerExceedsLimit

/-- goods_height_limit of the source: min(pallet height, container height)
minus base height; error if not positive. -/
def PalletSpec.goods_height_limit (p : PalletSpec) (container_height_cm : ℚ) :
    Except CalcError ℚ :=
  let limit := min p.height_cm container_height_cm - p.base_height_cm
  if limit ≤ 0 then .error .palletBaseExceedsContainer else .ok limit

/-- OrientationPlan of the source. -/
structure OrientationPlan where
  cartons_per_layer : ℤ
  cartons_along_length : ℤ
  cartons_along_width : ℤ
  carton_length_cm : ℚ
  carton_width_cm : ℚ
deriving DecidableEq

/-- ProductPlan of the source. -/
structure ProductPlan where
  product : ProductSpec
  orientation : OrientationPlan
  layers_per_pallet : ℤ
  cartons_per_pallet : ℤ
  full_pallets : ℤ
  remainder_cartons : ℤ
deriving DecidableEq

/-- goods_height_cm property of ProductPlan. -/
def ProductPlan.goods_height_cm (plan : ProductPlan) : ℚ :=
  (plan.layers_per_pallet : ℚ) * plan.product.carton_height_cm

/-- Layer of the source: one horizontal slice of cartons of one product. -/
structure Layer where
  product_name : String
  cartons : ℤ
  layer_height_cm : ℚ
deriving DecidableEq

/-- PalletDetail of the source; cartons_by_product is a Python dict in
insertion order, modelled as an association list. -/
structure PalletDetail where
  label : String
  count : ℤ
  cartons_by_product : List (String × ℤ)
  goods_height_cm : ℚ
  total_height_cm : ℚ
deriving DecidableEq

/-- CalculationInput of the source, fields still raw and untyped. -/
structure CalculationInput where
  products : List RawProduct
  pallet : RawPallet
  allow_mixed_remainders : Bool
  container_height : String

/-- CalculationResult of the source. -/
structure CalculationResult where
  product_plans : List ProductPlan
  pallets : List PalletDetail
  total_cartons : ℤ
  total_pallets : ℤ
  volume_without_pallets_cbm : ℚ
  volume_with_pallets_cbm : ℚ
deriving DecidableEq

/-- volume_without_pallets_cuft property of the source. -/
def CalculationResult.volume_without_pallets_cuft (r : CalculationResult) : ℚ :=
  r.volume_without_pallets_cbm * CUFT_PER_CBM

/-- volume_with_pallets_cuft property of the source. -/
def CalculationResult.volume_with_pallets_cuft (r : CalculationResult) : ℚ :=
  r.volume_with_pallets_cbm * CUFT_PER_CBM

/-- Parse one raw product entry; none is the caught exception of the
source's try block. -/
def parseProduct (raw : RawProduct) : Option ProductSpec := do
  let dims ← raw.carton_dimensions_cm
  let length_cm ← pyFloat (← pyIndex dims 0)
  let width_cm ← pyFloat (← pyIndex dims 1)
  let height_cm ← pyFloat (← pyIndex dims 2)
  let nameVal ← raw.name
  let oqVal ← raw.order_quantity_pcs
  let ppcVal ← raw.pcs_per_carton
  let order_quantity_pcs ← pyInt oqVal
  let pcs_per_carton ← pyInt ppcVal
  some { name := pyStr nameVal, order_quantity_pcs, pcs_per_carton,
         carton_length_cm := length_cm, carton_width_cm := width_cm,
         carton_height_cm := height_cm }

/-- Loop body of _load_products: collect parsed products, failing on the
first invalid record (the error names that record). -/
def loadProductList : List RawProduct → Except CalcError (List ProductSpec)
  | [] => .ok []
  | raw :: rest =>
    match parseProduct raw with
    | none => .error (.invalidProduct raw)
    | some p => (loadProductList rest).map (fun ps => p :: ps)

/-- _load_products of the source. -/
def _load_products (raws : List RawProduct) : Except CalcError (List ProductSpec) :=
  match loadProductList raws with
  | .error e => .error e
  | .ok ps => if ps.isEmpty then .error .emptyProducts else .ok ps

/-- _load_pallet of the source. -/
def _load_pallet (raw : RawPallet) : Except CalcError PalletSpec :=
  match raw.length_cm, raw.width_cm, raw.height_cm with
  | some lv, some wv, some hv =>
    let baseParsed : Option ℚ :=
      match raw.base_height_cm with
      | none => some 15
      | some bv => pyFloat bv
    match pyFloat lv, pyFloat wv, pyFloat hv, baseParsed with
    | some length_cm, some width_cm, some height_cm, some base_height_cm =>
      if length_cm ≤ 0 ∨ width_cm ≤ 0 ∨ height_cm ≤ 0 ∨ base_height_cm ≤ 0 then
        .error .nonPositivePalletDimension
      else if base_height_cm ≥ height_cm then
        .error .baseHeightNotBelowPalletHeight
      else
        .ok { length_cm, width_cm, height_cm, base_height_cm }
    | _, _, _, _ => .error .invalidPallet
  | _, _, _ => .error .invalidPallet

/-- _resolve_container_height of the source: case-insensitive lookup in
the fixed table 20CY/40CY ↦ 239, 40HQ ↦ 269. -/
def _resolve_container_height (container_height : String) : Except CalcError ℚ :=
  let code := pyUpper container_height
  if code = "20CY" then .ok 239
  else if code = "40CY" then .ok 239
  else if code = "40HQ" then .ok 269
  else .error (.unsupportedContainerHeight container_height)

/-- Stable insertion of one element into a descending-sorted accumulator:
the new element goes after every earlier element of equal or larger key,
before the first strictly smaller one. -/
def insertDescBy (lt : α → α → Bool) (x : α) : List α → List α
  | [] => [x]
  | y :: ys => if lt y x then x :: y :: ys else y :: insertDescBy lt x ys

/-- Stable descending sort: the embedding of Python sorted(..., key=...,
reverse=True), which is stable; elements are processed in input order. -/
def sortDescBy (lt : α → α → Bool) (l : List α) : List α :=
  l.foldl (fun acc x => insertDescBy lt x acc) []

/-- Strict lexicographic comparison of the sort key tuple used by
_best_orientation: (cartons_per_layer, cartons_along_length,
cartons_along_width). -/
def ltOrientation (a b : OrientationPlan) : Bool :=
  decide (a.cartons_per_layer < b.cartons_per_layer ∨
    (a.cartons_per_layer = b.cartons_per_layer ∧
      (a.cartons_along_length < b.cartons_along_length ∨
        (a.cartons_along_length = b.cartons_along_length ∧
          a.cartons_along_width < b.cartons_along_width))))

/-- One candidate layout of _best_orientation: floor-divide the pallet
footprint by the (possibly axis-swapped) carton footprint. -/
def orientationCandidate (pallet : PalletSpec) (length width : ℚ) : OrientationPlan :=
  let count_length : ℤ := ⌊pallet.length_cm / length⌋
  let count_width : ℤ := ⌊pallet.width_cm / width⌋
  { cartons_per_layer := count_length * count_width,
    cartons_along_length := count_length,
    cartons_along_width := count_width,
    carton_length_cm := length,
    carton_width_cm := width }

/-- _best_orientation of the source: the two axis-swapped candidates,
those with nonpositive cartons_per_layer discarded, sorted descending by
the key tuple, first one returned; error when no candidate is left. -/
def _best_orientation (product : ProductSpec) (pallet : PalletSpec) :
    Except CalcError OrientationPlan :=
  let c1 := orientationCandidate pallet product.carton_length_cm product.carton_width_cm
  let c2 := orientationCandidate pallet product.carton_width_cm product.carton_length_cm
  let options := [c1, c2].filter (fun o => decide (0 < o.cartons_per_layer))
  match sortDescBy ltOrientation options with
  | [] => .error (.cannotFitFootprint product.name)
  | o :: _ => .ok o

/-- _build_layers of the source: decompose a positive remainder into
full-capacity layers plus at most one carrying the rest; every fragment
has the product's carton height. -/
def _build_layers (plan : ProductPlan) : List Layer :=
  if plan.remainder_cartons ≤ 0 then [] else
    let per_layer := plan.orientation.cartons_per_layer
    let full_layers := plan.remainder_cartons.fdiv per_layer
    let remaining := plan.remainder_cartons.fmod per_layer
    List.replicate full_layers.toNat
      { product_name := plan.product.name, cartons := per_layer,
        layer_height_cm := plan.product.carton_height_cm } ++
    (if remaining = 0 then [] else
      [{ product_name := plan.product.name, cartons := remaining,
         layer_height_cm := plan.product.carton_height_cm }])

/-- Summed layer heights of one grouping. -/
def heightSum (g : List Layer) : ℚ := (g.map Layer.layer_height_cm).sum

/-- Loop of _pack_layers over the sorted fragments, carrying the open
pallet and its running height; closes the open pallet when a fragment
does not fit, and the final non-empty open pallet after the loop. -/
def packGo (limit : ℚ) : List Layer → List Layer → ℚ →
    Except CalcError (List (List Layer))
  | [], current, _ => .ok (if current.isEmpty then [] else [current])
  | l :: rest, current, current_height =>
    if limit < l.layer_height_cm then .error .layerExceedsLimit
    else if current_height + l.layer_height_cm ≤ limit then
      packGo limit rest (current ++ [l]) (current_height + l.layer_height_cm)
    else
      (packGo limit rest [l] l.layer_height_cm).map (fun tail => current :: tail)

/-- The comparison used to sort layer fragments (descending height). -/
def ltLayer (a b : Layer) : Bool := decide (a.layer_height_cm < b.layer_height_cm)

/-- The stable descending-height sort performed by _pack_layers. -/
def sortLayersDesc (layers : List Layer) : List Layer := sortDescBy ltLayer layers

/-- _pack_layers of the source: height-descending next-fit packing of the
pooled layer fragments. -/
def _pack_layers (layers : List Layer) (goods_height_limit_cm : ℚ) :
    Except CalcError (List (List Layer)) :=
  if layers.isEmpty then .ok []
  else packGo goods_height_limit_cm (sortLayersDesc layers) [] 0

/-- Per-product planning step of calculate_palletization (orientation,
layers per pallet, capacity, full pallets, remainder). -/
def planProduct (pallet : PalletSpec) (goods_limit_cm : ℚ) (product : ProductSpec) :
    Except CalcError ProductPlan :=
  match _best_orientation product pallet with
  | .error e => .error e
  | .ok orientation =>
    let layers_per_pallet : ℤ := ⌊goods_limit_cm / product.carton_height_cm⌋
    if layers_per_pallet ≤ 0 then .error (.exceedsStackingHeight product.name)
    else
      let cartons_per_pallet := orientation.cartons_per_layer * layers_per_pallet
      if cartons_per_pallet ≤ 0 then .error (.cannotPlaceOnPallet product.name)
      else
        let cartons_required := product.cartons_required
        .ok { product, orientation, layers_per_pallet, cartons_per_pallet,
              full_pallets := cartons_required.fdiv cartons_per_pallet,
              remainder_cartons := cartons_required.fmod cartons_per_pallet }

/-- The full-pallet detail a product emits when full_pallets is nonzero
(Python truthiness of the int). -/
def fullPalletDetails (pallet : PalletSpec) (plan : ProductPlan) : List PalletDetail :=
  if plan.full_pallets = 0 then [] else
    [{ label := plan.product.name ++ " full pallet",
       count := plan.full_pallets,
       cartons_by_product := [(plan.product.name, plan.cartons_per_pallet)],
       goods_height_cm := plan.goods_height_cm,
       total_height_cm := plan.goods_height_cm + pallet.base_height_cm }]

/-- The dedicated remainder pallet emitted when mixing is disabled and the
remainder is nonzero: goods height ceil(remainder / cartons_per_layer)
times carton height. -/
def remainderPalletDetails (pallet : PalletSpec) (plan : ProductPlan) : List PalletDetail :=
  if plan.remainder_cartons = 0 then [] else
    let goods_height_cm : ℚ :=
      ((⌈(plan.remainder_cartons : ℚ) / (plan.orientation.cartons_per_layer : ℚ)⌉ : ℤ) : ℚ) *
        plan.product.carton_height_cm
    [{ label := plan.product.name ++ " remainder pallet",
       count := 1,
       cartons_by_product := [(plan.product.name, plan.remainder_cartons)],
       goods_height_cm := goods_height_cm,
       total_height_cm := goods_height_cm + pallet.base_height_cm }]

/-- State accumulated by the per-product loop of calculate_palletization. -/
structure PlanPhase where
  product_plans : List ProductPlan
  remainder_layers : List Layer
  pallets : List PalletDetail
  total_cartons : ℤ
  volume_without_pallets : ℚ
deriving DecidableEq

/-- The per-product loop of calculate_palletization.  Each product
appends its plan, its full-pallet detail, and either its layer fragments
(mixing enabled) or its dedicated remainder pallet (mixing disabled);
prepending the head product's contribution to the recursive result yields
the same append-ordered lists as the source's loop. -/
def planProducts (pallet : PalletSpec) (goods_limit_cm : ℚ) (allow_mixed : Bool) :
    List ProductSpec → Except CalcError PlanPhase
  | [] => .ok { product_plans := [], remainder_layers := [], pallets := [],
                total_cartons := 0, volume_without_pallets := 0 }
  | product :: rest =>
    match planProduct pallet goods_limit_cm product with
    | .error e => .error e
    | .ok plan =>
      match planProducts pallet goods_limit_cm allow_mixed rest with
      | .error e => .error e
      | .ok phase =>
        let layersHere := if allow_mixed then _build_layers plan else []
        let remHere := if allow_mixed then [] else remainderPalletDetails pallet plan
        .ok { product_plans := plan :: phase.product_plans,
              remainder_layers := layersHere ++ phase.remainder_layers,
              pallets := fullPalletDetails pallet plan ++ remHere ++ phase.pallets,
              total_cartons := plan.product.cartons_required + phase.total_cartons,
              volume_without_pallets :=
                (plan.product.cartons_required : ℚ) * plan.product.carton_volume_cbm +
                  phase.volume_without_pallets }

/-- Python dict insertion/update used for cartons_by_product: add n to an
existing key in place, or append a new key at the end. -/
def addCartons (m : List (String × ℤ)) (name : String) (n : ℤ) : List (String × ℤ) :=
  match m with
  | [] => [(name, n)]
  | (k, v) :: rest =>
    if k = name then (k, v + n) :: rest else (k, v) :: addCartons rest name n

/-- One mixed remainder pallet detail built from a packed grouping, with
its 1-based position in packing order. -/
def mkMixedDetail (base_height_cm : ℚ) (index : ℕ) (g : List Layer) : PalletDetail :=
  { label := "Mixed remainder pallet #" ++ toString index,
    count := 1,
    cartons_by_product := g.foldl (fun m l => addCartons m l.product_name l.cartons) [],
    goods_height_cm := heightSum g,
    total_height_cm := heightSum g + base_height_cm }

/-- The mixed remainder pallet details, enumerated from the given index. -/
def mixedDetails (base_height_cm : ℚ) : ℕ → List (List Layer) → List PalletDetail
  | _, [] => []
  | index, g :: gs =>
    mkMixedDetail base_height_cm index g :: mixedDetails base_height_cm (index + 1) gs

/-- Sum of PalletDetail.count, as the source's final sum(...). -/
def sumCounts (pds : List PalletDetail) : ℤ := (pds.map PalletDetail.count).sum

/-- The source's final volume loop: count × footprint (m²) × height (m),
summed over all details. -/
def volumeWith (pallet : PalletSpec) (pds : List PalletDetail) : ℚ :=
  (pds.map (fun d => (d.count : ℚ) *
    ((pallet.length_cm / 100) * (pallet.width_cm / 100)) *
    (d.total_height_cm / 100))).sum

/-- Lines 264 to 361 of calculate_palletization, after input loading:
goods height limit, per-product loop, optional packing of the pooled
remainder fragments, final totals. -/
def calcCore (products : List ProductSpec) (pallet : PalletSpec)
    (allow_mixed : Bool) (container_height_cm : ℚ) :
    Except CalcError CalculationResult :=
  match pallet.goods_height_limit container_height_cm with
  | .error e => .error e
  | .ok goods_limit_cm =>
    match planProducts pallet goods_limit_cm allow_mixed products with
    | .error e => .error e
    | .ok phase =>
      let palletsE : Except CalcError (List PalletDetail) :=
        if allow_mixed && !phase.remainder_layers.isEmpty then
          (_pack_layers phase.remainder_layers goods_limit_cm).map
            (fun packed => phase.pallets ++ mixedDetails pallet.base_height_cm 1 packed)
        else .ok phase.pallets
      match palletsE with
      | .error e => .error e
      | .ok pallets =>
        .ok { product_plans := phase.product_plans,
              pallets := pallets,
              total_cartons := phase.total_cartons,
              total_pallets := sumCounts pallets,
              volume_without_pallets_cbm := phase.volume_without_pallets,
              volume_with_pallets_cbm := volumeWith pallet pallets }

/-- calculate_palletization of the source: load and validate the raw
input, then run the calculation core. -/
def calculate_palletization (data : CalculationInput) : Except CalcError CalculationResult :=
  match _load_products data.products with
  | .error e => .error e
  | .ok products =>
    match _load_pallet data.pallet with
    | .error e => .error e
    | .ok pallet =>
      match _resolve_container_height data.container_height with
      | .error e => .error e
      | .ok container_height_cm =>
        calcCore products pallet data.allow_mixed_remainders container_height_cm

/-- Sum of the carton counts recorded in a cartons_by_product mapping. -/
def sumVals (m : List (String × ℤ)) : ℤ := (m.map Prod.snd).sum

/-- Cartons carried by one pallet detail: its count times the cartons per
pallet of that detail. -/
def detailCartons (d : PalletDetail) : ℤ := d.count * sumVals d.cartons_by_product

/-- Cartons carried by a list of pallet details. -/
def palletsCartons (pds : List PalletDetail) : ℤ := (pds.map detailCartons).sum

/-- Cartons carried by a list of layer fragments. -/
def layersCartons (ls : List Layer) : ℤ := (ls.map Layer.cartons).sum

/-- Raw form of scenario product 999-00031 (qty 800, 10 per carton,
56 x 26 x 20 cm), as built by the repository's test suite. -/
def exampleRawA : RawProduct :=
  { name := some (.vstr "999-00031"), order_quantity_pcs := some (.vint 800),
    pcs_per_carton := some (.vint 10),
    carton_dimensions_cm := some (.vlist [.vint 56, .vint 26, .vint 20]) }

/-- Raw form of scenario product 999-00166 (qty 580, 10 per carton,
97 x 26 x 20 cm). -/
def exampleRawB : RawProduct :=
  { name := some (.vstr "999-00166"), order_quantity_pcs := some (.vint 580),
    pcs_per_carton := some (.vint 10),
    carton_dimensions_cm := some (.vlist [.vint 97, .vint 26, .vint 20]) }

/-- Raw form of the scenario pallet: 120 x 105 x 195 cm, base height
defaulted to 15. -/
def exampleRawPallet : RawPallet :=
  { length_cm := some (.vint 120), width_cm := some (.vint 105),
    height_cm := some (.vint 195), base_height_cm := none }

/-- Parsed scenario product A. -/
def exampleProdA : ProductSpec := ⟨"999-00031", 800, 10, 56, 26, 20⟩

/-- Parsed scenario product B. -/
def exampleProdB : ProductSpec := ⟨"999-00166", 580, 10, 97, 26, 20⟩

/-- Parsed scenario pallet. -/
def examplePallet : PalletSpec := ⟨120, 105, 195, 15⟩

/-- Scenario input with mixing enabled, container 20CY. -/
def exampleMixedInput : CalculationInput :=
  { products := [exampleRawA, exampleRawB], pallet := exampleRawPallet,
    allow_mixed_remainders := true, container_height := "20CY" }

/-- Scenario input with mixing disabled. -/
def exampleNoMixInput : CalculationInput :=
  { products := [exampleRawA, exampleRawB], pallet := exampleRawPallet,
    allow_mixed_remainders := false, container_height := "20CY" }

/-- Plan computed for scenario product A: 8 per layer (2 x 4), 9 layers,
72 per pallet, 1 full pallet, 8 remainder cartons. -/
def examplePlanA : ProductPlan :=
  { product := exampleProdA, orientation := ⟨8, 2, 4, 56, 26⟩,
    layers_per_pallet := 9, cartons_per_pallet := 72, full_pallets := 1,
    remainder_cartons := 8 }

/-- Plan computed for scenario product B: 4 per layer (4 x 1 after the
axis swap), 9 layers, 36 per pallet, 1 full pallet, 22 remainder. -/
def examplePlanB : ProductPlan :=
  { product := exampleProdB, orientation := ⟨4, 4, 1, 26, 97⟩,
    layers_per_pallet := 9, cartons_per_pallet := 36, full_pallets := 1,
    remainder_cartons := 22 }

/-- Scenario remainder fragment of product A: one layer of 8 cartons. -/
def exampleLayerA : Layer := ⟨"999-00031", 8, 20⟩

/-- Scenario full-capacity remainder fragment of product B. -/
def exampleLayerB4 : Layer := ⟨"999-00166", 4, 20⟩

/-- Scenario final short fragment of product B: 2 cartons. -/
def exampleLayerB2 : Layer := ⟨"999-00166", 2, 20⟩

/-- The pooled scenario fragments in pooling order. -/
def exampleLayers : List Layer :=
  [exampleLayerA, exampleLayerB4, exampleLayerB4, exampleLayerB4,
   exampleLayerB4, exampleLayerB4, exampleLayerB2]

/-- Full pallet detail of scenario product A. -/
def exampleFullA : PalletDetail :=
  { label := "999-00031 full pallet", count := 1,
    cartons_by_product := [("999-00031", 72)], goods_height_cm := 180,
    total_height_cm := 195 }

/-- Full pallet detail of scenario product B. -/
def exampleFullB : PalletDetail :=
  { label := "999-00166 full pallet", count := 1,
    cartons_by_product := [("999-00166", 36)], goods_height_cm := 180,
    total_height_cm := 195 }

/-- The single mixed remainder pallet of the scenario: all seven
fragments, 140 cm of goods. -/
def exampleMixed1 : PalletDetail :=
  { label := "Mixed remainder pallet #1", count := 1,
    cartons_by_product := [("999-00031", 8), ("999-00166", 22)],
    goods_height_cm := 140, total_height_cm := 155 }

/-- Dedicated remainder pallet of product A (mixing disabled): one layer,
20 cm of goods. -/
def exampleRemA : PalletDetail :=
  { label := "999-00031 remainder pallet", count := 1,
    cartons_by_product := [("999-00031", 8)], goods_height_cm := 20,
    total_height_cm := 35 }

/-- Dedicated remainder pallet of product B (mixing disabled): six
layers, 120 cm of goods. -/
def exampleRemB : PalletDetail :=
  { label := "999-00166 remainder pallet", count := 1,
    cartons_by_product := [("999-00166", 22)], goods_height_cm := 120,
    total_height_cm := 135 }

/-- Loop state after planning both scenario products with mixing. -/
def exampleMixedPhase : PlanPhase :=
  { product_plans := [examplePlanA, examplePlanB],
    remainder_layers := exampleLayers,
    pallets := [exampleFullA, exampleFullB], total_cartons := 138,
    volume_without_pallets := 525512/100000 }

/-- Loop state after planning both scenario products without mixing. -/
def exampleNoMixPhase : PlanPhase :=
  { product_plans := [examplePlanA, examplePlanB],
    remainder_layers := [],
    pallets := [exampleFullA, exampleRemA, exampleFullB, exampleRemB],
    total_cartons := 138, volume_without_pallets := 525512/100000 }

/-- Full result of the scenario with mixing enabled. -/
def exampleMixedResult : CalculationResult :=
  { product_plans := [examplePlanA, examplePlanB],
    pallets := [exampleFullA, exampleFullB, exampleMixed1],
    total_cartons := 138, total_pallets := 3,
    volume_without_pallets_cbm := 525512/100000,
    volume_with_pallets_cbm := 6867/1000 }

/-- Full result of the scenario with mixing disabled. -/
def exampleNoMixResult : CalculationResult :=
  { product_plans := [examplePlanA, examplePlanB],
    pallets := [exampleFullA, exampleRemA, exampleFullB, exampleRemB],
    total_cartons := 138, total_pallets := 4,
    volume_without_pallets_cbm := 525512/100000,
    volume_with_pallets_cbm := 7056/1000 }

/-- A raw product entry whose four fields are present and well-typed:
string name, integer quantities, rational dimensions. -/
def mkRawProduct (name : String) (oq ppc : ℤ) (L W H : ℚ) : RawProduct :=
  { name := some (.vstr name), order_quantity_pcs := some (.vint oq),
    pcs_per_carton := some (.vint ppc),
    carton_dimensions_cm := some (.vlist [.vrat L, .vrat W, .vrat H]) }

/-- A well-typed raw entry with order_quantity_pcs = 0, which is not a
positive integer. -/
def rawZeroQuantity : RawProduct := mkRawProduct "999-zero" 0 10 10 10 10

/-- A product whose carton footprint is 3 x 13/5 cm; on a square pallet
its two orientations tie on the whole sort key. -/
def tieProduct : ProductSpec := ⟨"TIE-1", 1, 1, 3, 13/5, 1⟩

/-- A 10 x 10 cm pallet footprint for the orientation tie. -/
def tiePallet : PalletSpec := ⟨10, 10, 100, 15⟩

/-- Loading the scenario products parses both records. -/
theorem exampleLoadProducts :
    _load_products [exampleRawA, exampleRawB] = .ok [exampleProdA, exampleProdB] := rfl

/-- Loading the scenario pallet applies the default base height 15. -/
theorem exampleLoadPallet : _load_pallet exampleRawPallet = .ok examplePallet := by
  norm_num [_load_pallet, exampleRawPallet, pyFloat, examplePallet]

/-- Container code 20CY resolves to 239 cm. -/
theorem exampleResolveContainer : _resolve_container_height "20CY" = .ok 239 := rfl

/-- Scenario goods height limit: min(195, 239) - 15 = 180. -/
theorem exampleGoodsLimit : examplePallet.goods_height_limit 239 = .ok 180 := by
  norm_num [PalletSpec.goods_height_limit, examplePallet]

/-- Planning scenario product A. -/
theorem examplePlanProductA : planProduct examplePallet 180 exampleProdA = .ok examplePlanA := by
  norm_num [planProduct, _best_orientation, orientationCandidate, exampleProdA,
    examplePallet, sortDescBy, insertDescBy, ltOrientation, List.filter,
    List.foldl, ProductSpec.cartons_required, examplePlanA, Int.fdiv, Int.fmod]

/-- Planning scenario product B; the axis-swapped orientation wins the
cartons_along_length tie-break. -/
theorem examplePlanProductB : planProduct examplePallet 180 exampleProdB = .ok examplePlanB := by
  norm_num [planProduct, _best_orientation, orientationCandidate, exampleProdB,
    examplePallet, sortDescBy, insertDescBy, ltOrientation, List.filter,
    List.foldl, ProductSpec.cartons_required, examplePlanB, Int.fdiv, Int.fmod]

/-- The per-product loop over the scenario products, mixing enabled. -/
theorem examplePlanPhaseMixed :
    planProducts examplePallet 180 true [exampleProdA, exampleProdB] = .ok exampleMixedPhase := by
  simp only [planProducts, examplePlanProductA, examplePlanProductB]
  norm_num [_build_layers,
    examplePlanA, examplePlanB, exampleProdA, exampleProdB, exampleLayerA,
    exampleLayerB4, exampleLayerB2, List.replicate, Int.fdiv, Int.fmod,
    fullPalletDetails, exampleMixedPhase, exampleFullA, exampleFullB,
    exampleLayers, examplePallet, ProductSpec.cartons_required,
    ProductSpec.carton_volume_cbm, ProductPlan.goods_height_cm]
  decide

/-- The per-product loop over the scenario products, mixing disabled. -/
theorem examplePlanPhaseNoMix :
    planProducts examplePallet 180 false [exampleProdA, exampleProdB] = .ok exampleNoMixPhase := by
  have hc : (⌈(11 : ℚ) / (2 : ℚ)⌉ : ℤ) = 6 := by
    rw [Int.ceil_eq_iff]
    norm_num
  simp only [planProducts, examplePlanProductA, examplePlanProductB]
  norm_num [remainderPalletDetails, hc, examplePlanA, examplePlanB, exampleProdA,
    exampleProdB, fullPalletDetails, exampleNoMixPhase, exampleFullA,
    exampleFullB, exampleRemA, exampleRemB, examplePallet,
    ProductSpec.cartons_required, ProductSpec.carton_volume_cbm,
    ProductPlan.goods_height_cm]
  decide

/-- Packing the seven pooled scenario fragments yields one grouping. -/
theorem examplePack : _pack_layers exampleLayers 180 = .ok [exampleLayers] := by
  norm_num [_pack_layers, exampleLayers, sortLayersDesc, sortDescBy, insertDescBy,
    ltLayer, List.foldl, packGo, exampleLayerA, exampleLayerB4, exampleLayerB2]

/-- The calculation core on the parsed scenario input, mixing enabled. -/
theorem exampleCalcCoreMixed :
    calcCore [exampleProdA, exampleProdB] examplePallet true 239 = .ok exampleMixedResult := by
  have hpack := examplePack
  simp only [exampleLayers, exampleLayerA, exampleLayerB4, exampleLayerB2] at hpack
  simp only [calcCore, exampleGoodsLimit, examplePlanPhaseMixed]
  norm_num [hpack,
    exampleMixedPhase, Except.map, mixedDetails, mkMixedDetail, addCartons,
    heightSum, sumCounts, volumeWith, exampleMixedResult, exampleFullA,
    exampleFullB, exampleMixed1, exampleLayers, exampleLayerA, exampleLayerB4,
    exampleLayerB2, examplePallet, List.foldl]
  decide

/-- The calculation core on the parsed scenario input, mixing disabled. -/
theorem exampleCalcCoreNoMix :
    calcCore [exampleProdA, exampleProdB] examplePallet false 239 = .ok exampleNoMixResult := by
  simp only [calcCore, exampleGoodsLimit, examplePlanPhaseNoMix]
  norm_num [exampleNoMixPhase, sumCounts, volumeWith, exampleNoMixResult, exampleFullA,
    exampleFullB, exampleRemA, exampleRemB, examplePallet]

/-- End to end scenario run with mixing enabled. -/
theorem exampleCalculateMixed :
    calculate_palletization exampleMixedInput = .ok exampleMixedResult := by
  simp only [calculate_palletization, exampleMixedInput, exampleLoadProducts,
    exampleLoadPallet, exampleResolveContainer, exampleCalcCoreMixed]

/-- End to end scenario run with mixing disabled. -/
theorem exampleCalculateNoMix :
    calculate_palletization exampleNoMixInput = .ok exampleNoMixResult := by
  simp only [calculate_palletization, exampleNoMixInput, exampleLoadProducts,
    exampleLoadPallet, exampleResolveContainer, exampleCalcCoreNoMix]

/-- Inserting an element permutes consing it. -/
theorem insertDescBy_perm (lt : α → α → Bool) (x : α) :
    ∀ l : List α, List.Perm (insertDescBy lt x l) (x :: l)
  | [] => by simp [insertDescBy]
  | y :: ys => by
    by_cases h : lt y x
    · simp [insertDescBy, h]
    · simp only [insertDescBy, h, Bool.false_eq_true, if_false]
      exact ((insertDescBy_perm lt x ys).cons y).trans (List.Perm.swap x y ys)

/-- Folding insertions over a list permutes appending it. -/
theorem sortDescBy_fold_perm (lt : α → α → Bool) :
    ∀ (l acc : List α),
      List.Perm (List.foldl (fun a x => insertDescBy lt x a) acc l) (acc ++ l)
  | [], acc => by simp
  | x :: l, acc => by
    simp only [List.foldl_cons]
    exact (sortDescBy_fold_perm lt l (insertDescBy lt x acc)).trans
      (((insertDescBy_perm lt x acc).append_right l).trans List.perm_middle.symm)

/-- The stable sort is a permutation of its input. -/
theorem sortDescBy_perm (lt : α → α → Bool) (l : List α) :
    List.Perm (sortDescBy lt l) l := by
  simpa [sortDescBy] using sortDescBy_fold_perm lt l []

/-- Membership is preserved by the stable sort. -/
theorem mem_sortDescBy {lt : α → α → Bool} {l : List α} {a : α} :
    a ∈ sortDescBy lt l ↔ a ∈ l :=
  (sortDescBy_perm lt l).mem_iff

/-- heightSum of the empty grouping. -/
theorem heightSum_nil : heightSum [] = 0 := rfl

/-- heightSum of a cons. -/
theorem heightSum_cons (l : Layer) (g : List Layer) :
    heightSum (l :: g) = l.layer_height_cm + heightSum g := by
  simp [heightSum]

/-- heightSum distributes over append. -/
theorem heightSum_append (g₁ g₂ : List Layer) :
    heightSum (g₁ ++ g₂) = heightSum g₁ + heightSum g₂ := by
  simp [heightSum]

/-- heightSum is nonnegative on groupings of nonnegative heights. -/
theorem heightSum_nonneg {g : List Layer} (h : ∀ l ∈ g, 0 ≤ l.layer_height_cm) :
    0 ≤ heightSum g := by
  induction g with
  | nil => simp [heightSum_nil]
  | cons a g ih =>
    rw [heightSum_cons]
    have := h a (by simp)
    have := ih (fun l hl => h l (by simp [hl]))
    linarith

/-- The layer sort is a permutation of its input. -/
theorem sortLayersDesc_perm (l : List Layer) : List.Perm (sortLayersDesc l) l :=
  sortDescBy_perm ltLayer l

/-- Whenever the packing loop returns groupings, their concatenation is
the open pallet followed by the remaining fragments: fragments are placed
in order and none is lost or duplicated. -/
theorem packGo_join (limit : ℚ) :
    ∀ (rest current : List Layer) (curH : ℚ) (gs : List (List Layer)),
      packGo limit rest current curH = .ok gs → gs.flatten = current ++ rest
  | [], current, curH, gs => by
    intro h
    simp only [packGo] at h
    by_cases hc : current.isEmpty
    · simp only [hc, if_true, Except.ok.injEq] at h
      subst h
      simp [List.isEmpty_iff.mp hc]
    · simp only [hc, if_false, Except.ok.injEq] at h
      subst h
      simp
  | l :: rest, current, curH, gs => by
    intro h
    simp only [packGo] at h
    by_cases h1 : limit < l.layer_height_cm
    · simp [h1] at h
    · simp only [h1, if_false] at h
      by_cases h2 : curH + l.layer_height_cm ≤ limit
      · simp only [h2, if_true] at h
        have := packGo_join limit rest (current ++ [l]) (curH + l.layer_height_cm) gs h
        simpa using this
      · simp only [h2, if_false] at h
        cases htail : packGo limit rest [l] l.layer_height_cm with
        | error e => rw [htail] at h; simp [Except.map] at h
        | ok tail =>
          rw [htail] at h
          simp only [Except.map, Except.ok.injEq] at h
          subst h
          have := packGo_join limit rest [l] l.layer_height_cm tail htail
          simp [this]

/-- Master specification of the packing loop: given that every remaining
fragment fits the limit on its own and the open pallet respects the
limit, the loop succeeds, partitions open-pallet-then-fragments in order,
emits only non-empty groupings within the limit, keeps the open pallet as
the front of its first grouping, and opens a new pallet only when the
next fragment would overflow the previous one. -/
theorem packGo_spec (limit : ℚ) :
    ∀ (rest current : List Layer) (curH : ℚ),
      curH = heightSum current → curH ≤ limit →
      (∀ l ∈ rest, l.layer_height_cm ≤ limit) →
      ∃ gs, packGo limit rest current curH = .ok gs ∧
        gs.flatten = current ++ rest ∧
        (∀ g ∈ gs, g ≠ []) ∧
        (∀ g ∈ gs, heightSum g ≤ limit) ∧
        (∀ g₀, gs.head? = some g₀ → ∃ t, g₀ = current ++ t) ∧
        gs.Chain' (fun g g' => ∀ x ∈ g'.head?, limit < heightSum g + x.layer_height_cm)
  | [], current, curH => by
    intro hH hle _
    by_cases hc : current = []
    · subst hc
      exact ⟨[], by simp [packGo], by simp, by simp, by simp, by simp, by simp⟩
    · refine ⟨[current], ?_, by simp, by simpa using hc, ?_, ?_, by simp⟩
      · simp [packGo, List.isEmpty_iff, hc]
      · simpa [← hH] using hle
      · intro g₀ hg₀
        simp only [List.head?_cons, Option.some.injEq] at hg₀
        exact ⟨[], by simp [hg₀]⟩
  | l :: rest, current, curH => by
    intro hH hle hall
    have hl : l.layer_height_cm ≤ limit := hall l (by simp)
    have hall' : ∀ x ∈ rest, x.layer_height_cm ≤ limit := fun x hx => hall x (by simp [hx])
    by_cases hfit : curH + l.layer_height_cm ≤ limit
    · obtain ⟨gs, hgo, hflat, hne, hbound, hhead, hchain⟩ :=
        packGo_spec limit rest (current ++ [l]) (curH + l.layer_height_cm)
          (by simp [heightSum_append, heightSum_cons, heightSum_nil, hH]) hfit hall'
      refine ⟨gs, ?_, by simpa using hflat, hne, hbound, ?_, hchain⟩
      · simp [packGo, not_lt_of_le hl, hfit, hgo]
      · intro g₀ hg₀
        obtain ⟨t, ht⟩ := hhead g₀ hg₀
        exact ⟨l :: t, by simp [ht]⟩
    · have hcur : current ≠ [] := by
        intro hc
        rw [hc] at hH
        rw [hH, heightSum_nil] at hfit
        exact hfit (by linarith)
      obtain ⟨gs, hgo, hflat, hne, hbound, hhead, hchain⟩ :=
        packGo_spec limit rest [l] l.layer_height_cm
          (by simp [heightSum_cons, heightSum_nil]) hl hall'
      refine ⟨current :: gs, ?_, ?_, ?_, ?_, ?_, ?_⟩
      · simp [packGo, not_lt_of_le hl, hfit, hgo, Except.map]
      · simp [hflat]
      · intro g hg
        rcases List.mem_cons.mp hg with h | h
        · subst h; exact hcur
        · exact hne g h
      · intro g hg
        rcases List.mem_cons.mp hg with h | h
        · subst h
          simpa [← hH] using hle
        · exact hbound g h
      · intro g₀ hg₀
        simp only [List.head?_cons, Option.some.injEq] at hg₀
        exact ⟨[], by simp [hg₀]⟩
      · rw [List.chain'_cons']
        constructor
        · intro y hy x hx
          obtain ⟨t, ht⟩ := hhead y hy
          rw [ht] at hx
          simp only [List.cons_append, List.head?_cons, Option.mem_def,
            Option.some.injEq] at hx
          subst hx
          rw [← hH]
          exact lt_of_not_le hfit
        · exact hchain

/-- When the fragments have positive heights and fit the limit together
with the open pallet, the packing loop never closes a pallet: everything
lands in one grouping. -/
theorem packGo_all_fit (limit : ℚ) :
    ∀ (rest current : List Layer) (curH : ℚ),
      curH = heightSum current → 0 ≤ curH →
      (∀ l ∈ rest, 0 < l.layer_height_cm) →
      heightSum current + heightSum rest ≤ limit →
      packGo limit rest current curH =
        .ok (if (current ++ rest).isEmpty then [] else [current ++ rest])
  | [], current, curH => by
    intro hH _ _ _
    simp [packGo]
  | l :: rest, current, curH => by
    intro hH h0 hpos htot
    have hrest_nonneg : 0 ≤ heightSum rest :=
      heightSum_nonneg (fun x hx => le_of_lt (hpos x (by simp [hx])))
    have hl : 0 < l.layer_height_cm := hpos l (by simp)
    have hltot : heightSum (l :: rest) = l.layer_height_cm + heightSum rest :=
      heightSum_cons l rest
    have hfit : curH + l.layer_height_cm ≤ limit := by
      rw [hH]
      rw [hltot] at htot
      linarith
    have hguard : ¬ limit < l.layer_height_cm := by
      rw [hltot] at htot
      rw [hH] at h0
      push_neg
      linarith
    have := packGo_all_fit limit rest (current ++ [l]) (curH + l.layer_height_cm)
      (by simp [heightSum_append, heightSum_cons, heightSum_nil, hH])
      (by positivity)
      (fun x hx => hpos x (by simp [hx]))
      (by
        rw [heightSum_append, heightSum_cons, heightSum_nil]
        rw [hltot] at htot
        linarith)
    rw [packGo, if_neg hguard, if_pos hfit, this]
    simp

/-- Inserting an element whose key is not below any accumulator element
appends it at the end. -/
theorem insertDescBy_append_last (lt : α → α → Bool) (x : α) :
    ∀ acc : List α, (∀ y ∈ acc, lt y x = false) → insertDescBy lt x acc = acc ++ [x]
  | [], _ => by simp [insertDescBy]
  | y :: ys, h => by
    have hy : lt y x = false := h y (by simp)
    simp only [insertDescBy, hy, Bool.false_eq_true, if_false, List.cons_append,
      List.cons.injEq, true_and]
    exact insertDescBy_append_last lt x ys (fun z hz => h z (by simp [hz]))

/-- Sorting a list of equal-height fragments leaves it unchanged. -/
theorem sortLayersDesc_const {c : ℚ} :
    ∀ (l acc : List Layer), (∀ a ∈ l, a.layer_height_cm = c) →
      (∀ a ∈ acc, a.layer_height_cm = c) →
      List.foldl (fun a x => insertDescBy ltLayer x a) acc l = acc ++ l
  | [], acc, _, _ => by simp
  | x :: l, acc, hl, hacc => by
    have hx : x.layer_height_cm = c := hl x (by simp)
    have hins : insertDescBy ltLayer x acc = acc ++ [x] :=
      insertDescBy_append_last ltLayer x acc (fun y hy => by
        have : y.layer_height_cm = c := hacc y hy
        simp [ltLayer, this, hx])
    simp only [List.foldl_cons, hins]
    rw [sortLayersDesc_const l (acc ++ [x]) (fun a ha => hl a (by simp [ha]))
      (fun a ha => by
        rcases List.mem_append.mp ha with h | h
        · exact hacc a h
        · simp only [List.mem_singleton] at h
          rw [h, hx])]
    simp

/-- heightSum of a constant-height grouping. -/
theorem heightSum_const {c : ℚ} :
    ∀ g : List Layer, (∀ a ∈ g, a.layer_height_cm = c) →
      heightSum g = (g.length : ℚ) * c
  | [], _ => by simp [heightSum_nil]
  | x :: g, h => by
    rw [heightSum_cons, heightSum_const g (fun a ha => h a (by simp [ha])),
      h x (by simp), List.length_cons]
    push_cast
    ring

/-- Ceiling of an integer quotient with positive divisor, in terms of
floor division and floor modulus. -/
theorem ceil_div_fdiv (a b : ℤ) (hb : 0 < b) :
    (⌈(a : ℚ) / (b : ℚ)⌉ : ℤ) = a.fdiv b + (if a.fmod b = 0 then 0 else 1) := by
  have hb0 : (0 : ℚ) < (b : ℚ) := by exact_mod_cast hb
  have hdm : b * a.fdiv b + a.fmod b = a := Int.fdiv_add_fmod a b
  have hmod_nonneg : 0 ≤ a.fmod b := by
    rw [Int.fmod_eq_emod a (le_of_lt hb)]
    exact Int.emod_nonneg a (ne_of_gt hb)
  have hmod_lt : a.fmod b < b := by
    rw [Int.fmod_eq_emod a (le_of_lt hb)]
    exact Int.emod_lt_of_pos a hb
  have ha : (a : ℚ) = (b : ℚ) * (a.fdiv b : ℚ) + (a.fmod b : ℚ) := by
    exact_mod_cast congrArg (fun z : ℤ => (z : ℚ)) hdm.symm
  have hsplit : (a : ℚ) / (b : ℚ) = (a.fdiv b : ℚ) + (a.fmod b : ℚ) / (b : ℚ) := by
    rw [ha]
    field_simp
    ring
  rw [hsplit, add_comm, Int.ceil_add_int]
  by_cases hz : a.fmod b = 0
  · simp [hz]
  · have h1 : (0 : ℚ) < (a.fmod b : ℚ) / (b : ℚ) := by
      apply div_pos _ hb0
      exact_mod_cast lt_of_le_of_ne hmod_nonneg (Ne.symm hz)
    have h2 : (a.fmod b : ℚ) / (b : ℚ) ≤ 1 := by
      rw [div_le_one hb0]
      exact_mod_cast le_of_lt hmod_lt
    have : ⌈(a.fmod b : ℚ) / (b : ℚ)⌉ = 1 := by
      rw [Int.ceil_eq_iff]
      constructor
      · simpa using h1
      · simpa using h2
    rw [this]
    simp [hz]
    ring

/-- Insertion keeps a descending-sorted accumulator sorted. -/
theorem insertDescBy_layer_sorted (x : Layer) :
    ∀ acc : List Layer,
      acc.Pairwise (fun a b => b.layer_height_cm ≤ a.layer_height_cm) →
      (insertDescBy ltLayer x acc).Pairwise
        (fun a b => b.layer_height_cm ≤ a.layer_height_cm)
  | [], _ => by simp [insertDescBy]
  | y :: ys, h => by
    rcases List.pairwise_cons.mp h with ⟨hy, hys⟩
    by_cases hlt : ltLayer y x
    · have hyx : y.layer_height_cm < x.layer_height_cm := by
        simpa [ltLayer] using hlt
      simp only [insertDescBy, hlt, if_true]
      rw [List.pairwise_cons]
      refine ⟨?_, h⟩
      intro z hz
      rcases List.mem_cons.mp hz with h' | h'
      · rw [h']; exact le_of_lt hyx
      · exact le_trans (hy z h') (le_of_lt hyx)
    · have hxy : x.layer_height_cm ≤ y.layer_height_cm := by
        simpa [ltLayer] using hlt
      simp only [insertDescBy, hlt, Bool.false_eq_true, if_false]
      rw [List.pairwise_cons]
      constructor
      · intro z hz
        have : z ∈ x :: ys := (insertDescBy_perm ltLayer x ys).mem_iff.mp hz
        rcases List.mem_cons.mp this with h' | h'
        · rw [h']; exact hxy
        · exact hy z h'
      · exact insertDescBy_layer_sorted x ys hys

/-- Filtering one height class through an insertion into a sorted
accumulator: the new element lands after every accumulator element of its
own height class. -/
theorem filter_insertDescBy_layer (q : ℚ) (x : Layer) :
    ∀ acc : List Layer,
      acc.Pairwise (fun a b => b.layer_height_cm ≤ a.layer_height_cm) →
      (insertDescBy ltLayer x acc).filter (fun a => decide (a.layer_height_cm = q)) =
        acc.filter (fun a => decide (a.layer_height_cm = q)) ++
          (if x.layer_height_cm = q then [x] else [])
  | [], _ => by
    by_cases hx : x.layer_height_cm = q <;> simp [insertDescBy, hx]
  | y :: ys, h => by
    rcases List.pairwise_cons.mp h with ⟨hy, hys⟩
    by_cases hlt : ltLayer y x
    · have hyx : y.layer_height_cm < x.layer_height_cm := by
        simpa [ltLayer] using hlt
      simp only [insertDescBy, hlt, if_true]
      by_cases hx : x.layer_height_cm = q
      · have hnone : (y :: ys).filter (fun a => decide (a.layer_height_cm = q)) = [] := by
          rw [List.filter_eq_nil_iff]
          intro z hz
          rcases List.mem_cons.mp hz with h' | h'
          · subst h'
            simp only [decide_eq_true_eq]
            intro hzq
            rw [hzq, ← hx] at hyx
            exact lt_irrefl _ hyx
          · simp only [decide_eq_true_eq]
            intro hzq
            have := hy z h'
            rw [hzq, ← hx] at this
            exact absurd (lt_of_lt_of_le hyx this) (lt_irrefl _)
        have hys_none : ys.filter (fun a => decide (a.layer_height_cm = q)) = [] := by
          rw [List.filter_eq_nil_iff]
          intro z hz
          exact List.filter_eq_nil_iff.mp hnone z (by simp [hz])
        rw [hnone, List.nil_append, if_pos hx]
        rw [List.filter_cons_of_pos (by simp [hx])]
        rw [List.filter_cons_of_neg (by
          simp only [decide_eq_true_eq]
          intro hyq
          rw [hyq, ← hx] at hyx
          exact lt_irrefl _ hyx)]
        rw [hys_none]
      · rw [if_neg hx, List.append_nil, List.filter_cons_of_neg (by simp [hx])]
    · have hxy : x.layer_height_cm ≤ y.layer_height_cm := by
        simpa [ltLayer] using hlt
      simp only [insertDescBy, hlt, Bool.false_eq_true, if_false]
      have ih := filter_insertDescBy_layer q x ys hys
      by_cases hyq : y.layer_height_cm = q
      · rw [List.filter_cons_of_pos (by simp [hyq]),
          List.filter_cons_of_pos (by simp [hyq]), ih, List.cons_append]
      · rw [List.filter_cons_of_neg (by simp [hyq]),
          List.filter_cons_of_neg (by simp [hyq]), ih]

/-- Folding insertions preserves each height class of the input, appended
after the accumulator's. -/
theorem filter_sort_fold (q : ℚ) :
    ∀ (l acc : List Layer),
      acc.Pairwise (fun a b => b.layer_height_cm ≤ a.layer_height_cm) →
      (List.foldl (fun a x => insertDescBy ltLayer x a) acc l).filter
          (fun a => decide (a.layer_height_cm = q)) =
        acc.filter (fun a => decide (a.layer_height_cm = q)) ++
          l.filter (fun a => decide (a.layer_height_cm = q))
  | [], acc, _ => by simp
  | x :: l, acc, h => by
    simp only [List.foldl_cons]
    rw [filter_sort_fold q l (insertDescBy ltLayer x acc)
      (insertDescBy_layer_sorted x acc h)]
    rw [filter_insertDescBy_layer q x acc h]
    by_cases hx : x.layer_height_cm = q
    · rw [if_pos hx, List.filter_cons_of_pos (by simp [hx])]
      simp
    · rw [if_neg hx, List.filter_cons_of_neg (by simp [hx])]
      simp

/-- Adding cartons to the mapping adds them to its value sum. -/
theorem sumVals_addCartons (name : String) (n : ℤ) :
    ∀ m : List (String × ℤ), sumVals (addCartons m name n) = sumVals m + n
  | [] => by simp [addCartons, sumVals]
  | (k, v) :: rest => by
    by_cases hk : k = name
    · simp [addCartons, hk, sumVals]
      ring
    · simp only [addCartons, hk, if_false]
      have ih := sumVals_addCartons name n rest
      simp only [sumVals, List.map_cons, List.sum_cons] at ih ⊢
      omega

/-- Folding a grouping into the mapping adds exactly its cartons. -/
theorem sumVals_fold_group :
    ∀ (g : List Layer) (m : List (String × ℤ)),
      sumVals (g.foldl (fun m l => addCartons m l.product_name l.cartons) m) =
        sumVals m + layersCartons g
  | [], m => by simp [layersCartons]
  | l :: g, m => by
    simp only [List.foldl_cons]
    rw [sumVals_fold_group g (addCartons m l.product_name l.cartons),
      sumVals_addCartons]
    simp only [layersCartons, List.map_cons, List.sum_cons]
    ring

/-- palletsCartons distributes over append. -/
theorem palletsCartons_append (p₁ p₂ : List PalletDetail) :
    palletsCartons (p₁ ++ p₂) = palletsCartons p₁ + palletsCartons p₂ := by
  simp [palletsCartons]

/-- layersCartons distributes over append. -/
theorem layersCartons_append (l₁ l₂ : List Layer) :
    layersCartons (l₁ ++ l₂) = layersCartons l₁ + layersCartons l₂ := by
  simp [layersCartons]

/-- layersCartons is invariant under the sort. -/
theorem layersCartons_sort (l : List Layer) :
    layersCartons (sortLayersDesc l) = layersCartons l :=
  List.Perm.sum_eq ((sortLayersDesc_perm l).map Layer.cartons)

/-- The mixed remainder details carry exactly the cartons of the packed
groupings, whatever the starting index. -/
theorem palletsCartons_mixedDetails (base : ℚ) :
    ∀ (k : ℕ) (gs : List (List Layer)),
      palletsCartons (mixedDetails base k gs) = layersCartons gs.flatten
  | _, [] => by simp [mixedDetails, palletsCartons, layersCartons]
  | k, g :: gs => by
    simp only [mixedDetails, palletsCartons, List.map_cons, List.sum_cons,
      List.flatten_cons]
    rw [← palletsCartons, palletsCartons_mixedDetails base (k + 1) gs,
      layersCartons_append]
    simp only [detailCartons, mkMixedDetail]
    rw [sumVals_fold_group]
    simp [sumVals]

/-- The full-pallet details of one product carry full_pallets times the
per-pallet capacity (also when no detail is emitted). -/
theorem palletsCartons_full (pallet : PalletSpec) (plan : ProductPlan) :
    palletsCartons (fullPalletDetails pallet plan) =
      plan.full_pallets * plan.cartons_per_pallet := by
  by_cases h : plan.full_pallets = 0
  · simp [fullPalletDetails, h, palletsCartons]
  · simp [fullPalletDetails, h, palletsCartons, detailCartons, sumVals]

/-- The dedicated remainder detail of one product carries exactly its
remainder cartons (also when no detail is emitted). -/
theorem palletsCartons_rem (pallet : PalletSpec) (plan : ProductPlan) :
    palletsCartons (remainderPalletDetails pallet plan) = plan.remainder_cartons := by
  by_cases h : plan.remainder_cartons = 0
  · simp [remainderPalletDetails, h, palletsCartons]
  · simp [remainderPalletDetails, h, palletsCartons, detailCartons, sumVals]

/-- The layer fragments of one product carry exactly its remainder
cartons. -/
theorem layersCartons_build (plan : ProductPlan)
    (hper : 0 < plan.orientation.cartons_per_layer)
    (hrem : 0 ≤ plan.remainder_cartons) :
    layersCartons (_build_layers plan) = plan.remainder_cartons := by
  by_cases h : plan.remainder_cartons ≤ 0
  · have hz : plan.remainder_cartons = 0 := le_antisymm h hrem
    simp [_build_layers, h, layersCartons, hz]
  · simp only [_build_layers, h, if_false]
    push_neg at h
    set r := plan.remainder_cartons with hr
    set b := plan.orientation.cartons_per_layer with hb
    have hq_nonneg : 0 ≤ r.fdiv b := by
      rw [Int.fdiv_eq_ediv r (le_of_lt hper)]
      exact Int.ediv_nonneg hrem (le_of_lt hper)
    have hcast : ((r.fdiv b).toNat : ℤ) = r.fdiv b := Int.toNat_of_nonneg hq_nonneg
    have hdm : b * r.fdiv b + r.fmod b = r := Int.fdiv_add_fmod r b
    rw [layersCartons_append]
    have hrep : layersCartons (List.replicate (r.fdiv b).toNat
        { product_name := plan.product.name, cartons := b,
          layer_height_cm := plan.product.carton_height_cm }) =
        (r.fdiv b) * b := by
      simp [layersCartons, List.map_replicate, List.sum_replicate, nsmul_eq_mul, hcast]
    rw [hrep]
    rw [mul_comm b (r.fdiv b)] at hdm
    by_cases hm : r.fmod b = 0
    · rw [hm, add_zero] at hdm
      simp [hm, layersCartons, hdm]
    · simp [hm, layersCartons]
      linarith [hdm]

/-- A successful orientation selection returns one of the two candidates,
with positive cartons_per_layer. -/
theorem best_orientation_ok {p : ProductSpec} {pal : PalletSpec} {o : OrientationPlan}
    (h : _best_orientation p pal = .ok o) :
    0 < o.cartons_per_layer ∧
      (o = orientationCandidate pal p.carton_length_cm p.carton_width_cm ∨
        o = orientationCandidate pal p.carton_width_cm p.carton_length_cm) := by
  unfold _best_orientation at h
  dsimp only at h
  set options := [orientationCandidate pal p.carton_length_cm p.carton_width_cm,
    orientationCandidate pal p.carton_width_cm p.carton_length_cm].filter
      (fun c => decide (0 < c.cartons_per_layer)) with hopts
  cases hs : sortDescBy ltOrientation options with
  | nil => rw [hs] at h; simp at h
  | cons o' t =>
    rw [hs] at h
    simp only [Except.ok.injEq] at h
    subst h
    have hmem : o' ∈ sortDescBy ltOrientation options := by rw [hs]; simp
    have : o' ∈ options := mem_sortDescBy.mp hmem
    rw [hopts] at this
    have hmem2 := List.mem_filter.mp this
    rcases hmem2 with ⟨hin, hpos⟩
    refine ⟨by simpa using hpos, ?_⟩
    rcases List.mem_cons.mp hin with h' | h'
    · exact Or.inl h'
    · exact Or.inr (by simpa using h')

/-- Inversion of a successful per-product planning step: the plan records
the product, a successfully selected orientation, the floor-division
layer count, the capacity, and the floor division/modulus of the carton
requirement, all positive where the source checks them. -/
theorem planProduct_ok {pallet : PalletSpec} {limit : ℚ} {product : ProductSpec}
    {plan : ProductPlan} (h : planProduct pallet limit product = .ok plan) :
    plan.product = product ∧
      _best_orientation product pallet = .ok plan.orientation ∧
      plan.layers_per_pallet = ⌊limit / product.carton_height_cm⌋ ∧
      0 < plan.layers_per_pallet ∧
      plan.cartons_per_pallet = plan.orientation.cartons_per_layer * plan.layers_per_pallet ∧
      0 < plan.cartons_per_pallet ∧
      0 < plan.orientation.cartons_per_layer ∧
      plan.full_pallets = product.cartons_required.fdiv plan.cartons_per_pallet ∧
      plan.remainder_cartons = product.cartons_required.fmod plan.cartons_per_pallet := by
  unfold planProduct at h
  cases hbo : _best_orientation product pallet with
  | error e => rw [hbo] at h; simp at h
  | ok orient =>
    rw [hbo] at h
    simp only at h
    by_cases h1 : (⌊limit / product.carton_height_cm⌋ : ℤ) ≤ 0
    · rw [if_pos h1] at h; simp at h
    · rw [if_neg h1] at h
      by_cases h2 : orient.cartons_per_layer * ⌊limit / product.carton_height_cm⌋ ≤ 0
      · rw [if_pos h2] at h; simp at h
      · rw [if_neg h2] at h
        simp only [Except.ok.injEq] at h
        subst h
        push_neg at h1 h2
        refine ⟨rfl, ?_, rfl, h1, rfl, h2, ?_, rfl, rfl⟩
        · rfl
        · exact (best_orientation_ok hbo).1

/-- A successful goods height limit is positive and equals the source's
formula. -/
theorem goods_height_limit_ok {p : PalletSpec} {ch limit : ℚ}
    (h : p.goods_height_limit ch = .ok limit) :
    0 < limit ∧ limit = min p.height_cm ch - p.base_height_cm := by
  unfold PalletSpec.goods_height_limit at h
  by_cases hc : min p.height_cm ch - p.base_height_cm ≤ 0
  · simp only [hc, if_true] at h; cases h
  · simp only [hc, if_false, Except.ok.injEq] at h
    push_neg at hc
    exact ⟨h ▸ hc, h.symm⟩

/-- A positive floor of a quotient with positive numerator forces a
positive divisor bounded by the numerator. -/
theorem floor_div_facts {L h : ℚ} (hL : 0 < L) (hfl : 1 ≤ ⌊L / h⌋) :
    0 < h ∧ h ≤ L := by
  have hh : 0 < h := by
    by_contra hh
    push_neg at hh
    rcases lt_or_eq_of_le hh with hlt | heq
    · have hdiv : L / h < 0 := div_neg_of_pos_of_neg hL hlt
      have : (⌊L / h⌋ : ℚ) ≤ L / h := Int.floor_le _
      have : (⌊L / h⌋ : ℚ) < 0 := lt_of_le_of_lt this hdiv
      have : ⌊L / h⌋ < 0 := by exact_mod_cast this
      omega
    · rw [heq] at hfl
      norm_num at hfl
  refine ⟨hh, ?_⟩
  have : (1 : ℚ) ≤ L / h := by
    have := (Int.le_floor.mp hfl)
    exact_mod_cast this
  calc h = 1 * h := (one_mul h).symm
    _ ≤ (L / h) * h := by
      apply mul_le_mul_of_nonneg_right this (le_of_lt hh)
    _ = L := div_mul_cancel₀ L (ne_of_gt hh)

/-- Every fragment built from a plan has the plan's carton height. -/
theorem build_layers_height {plan : ProductPlan} {l : Layer}
    (h : l ∈ _build_layers plan) :
    l.layer_height_cm = plan.product.carton_height_cm := by
  unfold _build_layers at h
  by_cases hr : plan.remainder_cartons ≤ 0
  · simp [hr] at h
  · simp only [hr, if_false, List.mem_append] at h
    rcases h with h | h
    · rw [(List.eq_of_mem_replicate h)]
    · by_cases hm : plan.remainder_cartons.fmod plan.orientation.cartons_per_layer = 0
      · simp [hm] at h
      · simp only [hm, if_false, List.mem_singleton] at h
        rw [h]

/-- Invariants of the per-product loop: the plans record the products in
order; the running carton total is the sum of carton requirements; the
emitted details plus the pooled fragments carry exactly that total;
every plan satisfies the positivity checks and division identities of
the source; every pooled fragment has some plan's carton height; with
mixing disabled nothing is pooled. -/
theorem planProducts_spec (pallet : PalletSpec) (limit : ℚ) (mixed : Bool) :
    ∀ (ps : List ProductSpec) (phase : PlanPhase),
      planProducts pallet limit mixed ps = .ok phase →
      phase.product_plans.map ProductPlan.product = ps ∧
      phase.total_cartons =
        (phase.product_plans.map (fun pl => pl.product.cartons_required)).sum ∧
      palletsCartons phase.pallets + layersCartons phase.remainder_layers =
        phase.total_cartons ∧
      (∀ plan ∈ phase.product_plans,
        0 < plan.orientation.cartons_per_layer ∧
        0 < plan.layers_per_pallet ∧
        0 < plan.cartons_per_pallet ∧
        plan.layers_per_pallet = ⌊limit / plan.product.carton_height_cm⌋ ∧
        plan.cartons_per_pallet =
          plan.orientation.cartons_per_layer * plan.layers_per_pallet ∧
        plan.full_pallets = plan.product.cartons_required.fdiv plan.cartons_per_pallet ∧
        plan.remainder_cartons =
          plan.product.cartons_required.fmod plan.cartons_per_pallet) ∧
      (∀ l ∈ phase.remainder_layers, ∃ plan ∈ phase.product_plans,
        l.layer_height_cm = plan.product.carton_height_cm) ∧
      (mixed = false → phase.remainder_layers = [])
  | [], phase => by
    intro h
    simp only [planProducts, Except.ok.injEq] at h
    subst h
    simp [palletsCartons, layersCartons]
  | p :: ps, phase => by
    intro h
    simp only [planProducts] at h
    cases hpp : planProduct pallet limit p with
    | error e => rw [hpp] at h; simp at h
    | ok plan =>
      rw [hpp] at h
      cases hrest : planProducts pallet limit mixed ps with
      | error e => rw [hrest] at h; simp at h
      | ok phase' =>
        rw [hrest] at h
        dsimp only at h
        simp only [Except.ok.injEq] at h
        subst h
        obtain ⟨ih1, ih2, ih3, ih4, ih5, ih6⟩ :=
          planProducts_spec pallet limit mixed ps phase' hrest
        obtain ⟨hprod, hbo, hlppEq, hlppPos, hcppEq, hcppPos, hperPos, hfull, hrem⟩ :=
          planProduct_ok hpp
        have hremNonneg : 0 ≤ plan.remainder_cartons := by
          rw [hrem, Int.fmod_eq_emod _ (le_of_lt hcppPos)]
          exact Int.emod_nonneg _ (ne_of_gt hcppPos)
        have hsum : plan.full_pallets * plan.cartons_per_pallet +
            plan.remainder_cartons = plan.product.cartons_required := by
          rw [hprod, hfull, hrem]
          linarith [Int.fdiv_add_fmod p.cartons_required plan.cartons_per_pallet,
            mul_comm plan.cartons_per_pallet
              (p.cartons_required.fdiv plan.cartons_per_pallet)]
        refine ⟨?_, ?_, ?_, ?_, ?_, ?_⟩
        · simp [hprod, ih1]
        · simp only [List.map_cons, List.sum_cons]
          rw [ih2]
        · cases mixed with
          | false =>
            simp only [if_neg (by simp : ¬(false = true))]
            rw [palletsCartons_append, palletsCartons_append, layersCartons_append,
              palletsCartons_full, palletsCartons_rem]
            have hl0 : layersCartons phase'.remainder_layers = 0 := by
              rw [ih6 rfl]; rfl
            have hl0' : layersCartons ([] : List Layer) = 0 := rfl
            linarith [ih3, hsum, hl0, hl0']
          | true =>
            simp only [eq_self_iff_true, if_true]
            rw [palletsCartons_append, palletsCartons_append, layersCartons_append,
              palletsCartons_full, layersCartons_build plan hperPos hremNonneg]
            have hp0 : palletsCartons ([] : List PalletDetail) = 0 := rfl
            linarith [ih3, hsum, hp0]
        · intro pl hpl
          rcases List.mem_cons.mp hpl with h' | h'
          · subst h'
            refine ⟨hperPos, hlppPos, hcppPos, by rw [hlppEq, hprod], hcppEq, ?_, ?_⟩
            · rw [hprod]; exact hfull
            · rw [hprod]; exact hrem
          · exact ih4 pl h'
        · intro l hl
          rcases List.mem_append.mp hl with h' | h'
          · cases mixed with
            | false => simp at h'
            | true =>
              simp only [if_pos rfl] at h'
              exact ⟨plan, by simp, build_layers_height h'⟩
          · obtain ⟨pl, hpl, hh⟩ := ih5 l h'
            exact ⟨pl, by simp [hpl], hh⟩
        · intro hm
          subst hm
          simp only [if_neg (Bool.false_ne_true), List.nil_append]
          exact ih6 rfl

/-- Inversion of a successful core run: the goods limit and the loop
succeed, the result's totals are the final sums of the source, and the
emitted pallets are the loop's details, extended by the mixed remainder
details exactly when mixing was on and fragments were pooled. -/
theorem calcCore_ok {products : List ProductSpec} {pallet : PalletSpec}
    {mixed : Bool} {ch : ℚ} {res : CalculationResult}
    (h : calcCore products pallet mixed ch = .ok res) :
    ∃ limit phase,
      pallet.goods_height_limit ch = .ok limit ∧
      planProducts pallet limit mixed products = .ok phase ∧
      res.product_plans = phase.product_plans ∧
      res.total_cartons = phase.total_cartons ∧
      res.volume_without_pallets_cbm = phase.volume_without_pallets ∧
      res.total_pallets = sumCounts res.pallets ∧
      res.volume_with_pallets_cbm = volumeWith pallet res.pallets ∧
      ((mixed = true ∧ phase.remainder_layers ≠ [] ∧
          ∃ packed, _pack_layers phase.remainder_layers limit = .ok packed ∧
            res.pallets = phase.pallets ++ mixedDetails pallet.base_height_cm 1 packed) ∨
        ((mixed = false ∨ phase.remainder_layers = []) ∧
          res.pallets = phase.pallets)) := by
  unfold calcCore at h
  cases hg : pallet.goods_height_limit ch with
  | error e => rw [hg] at h; simp at h
  | ok limit =>
    rw [hg] at h
    dsimp only at h
    cases hp : planProducts pallet limit mixed products with
    | error e => rw [hp] at h; simp at h
    | ok phase =>
      rw [hp] at h
      dsimp only at h
      by_cases hcond : (mixed && !phase.remainder_layers.isEmpty) = true
      · rw [if_pos hcond] at h
        cases hpk : _pack_layers phase.remainder_layers limit with
        | error e => rw [hpk] at h; simp [Except.map] at h
        | ok packed =>
          rw [hpk] at h
          simp only [Except.map, Except.ok.injEq] at h
          subst h
          have hsplit : mixed = true ∧ (!phase.remainder_layers.isEmpty) = true := by
            simpa [Bool.and_eq_true] using hcond
          rcases hsplit with ⟨hm, hne⟩
          refine ⟨limit, phase, rfl, hp, rfl, rfl, rfl, rfl, rfl, Or.inl ?_⟩
          refine ⟨hm, ?_, packed, hpk, rfl⟩
          intro hnil
          rw [hnil] at hne
          simp at hne
      · rw [if_neg hcond] at h
        simp only [Except.ok.injEq] at h
        subst h
        refine ⟨limit, phase, rfl, hp, rfl, rfl, rfl, rfl, rfl, Or.inr ⟨?_, rfl⟩⟩
        by_cases hm : mixed = true
        · right
          rw [hm] at hcond
          simp only [Bool.true_and, Bool.not_eq_true', Bool.not_eq_false] at hcond
          exact List.isEmpty_iff.mp (by simpa using hcond)
        · exact Or.inl (Bool.not_eq_true mixed ▸ hm)

/-- Inversion of a successful end-to-end run into its loading stages and
the core. -/
theorem calculate_ok {data : CalculationInput} {res : CalculationResult}
    (h : calculate_palletization data = .ok res) :
    ∃ products pallet ch,
      _load_products data.products = .ok products ∧
      _load_pallet data.pallet = .ok pallet ∧
      _resolve_container_height data.container_height = .ok ch ∧
      calcCore products pallet data.allow_mixed_remainders ch = .ok res := by
  unfold calculate_palletization at h
  cases h1 : _load_products data.products with
  | error e => rw [h1] at h; simp at h
  | ok products =>
    rw [h1] at h
    dsimp only at h
    cases h2 : _load_pallet data.pallet with
    | error e => rw [h2] at h; simp at h
    | ok pallet =>
      rw [h2] at h
      dsimp only at h
      cases h3 : _resolve_container_height data.container_height with
      | error e => rw [h3] at h; simp at h
      | ok ch =>
        rw [h3] at h
        dsimp only at h
        exact ⟨products, pallet, ch, rfl, rfl, rfl, h⟩

/-- C1: for every fragment list and positive goods height limit with no
fragment taller than the limit, _pack_layers succeeds with an ordered
sequence of non-empty groupings, each grouping's summed height within
the limit; the groupings partition the height-sorted fragments in order,
and a new pallet is opened exactly when the next fragment would not fit
on the open one (next-fit). -/
theorem pack_layers_next_fit (layers : List Layer) (limit : ℚ)
    (hpos : 0 < limit)
    (hall : ∀ l ∈ layers, l.layer_height_cm ≤ limit) :
    ∃ gs, _pack_layers layers limit = .ok gs ∧
      gs.flatten = sortLayersDesc layers ∧
      (∀ g ∈ gs, g ≠ []) ∧
      (∀ g ∈ gs, heightSum g ≤ limit) ∧
      gs.Chain' (fun g g' => ∀ x ∈ g'.head?,
        limit < heightSum g + x.layer_height_cm) := by
  by_cases hnil : layers.isEmpty
  · refine ⟨[], ?_, ?_, by simp, by simp, by simp⟩
    · simp [_pack_layers, hnil]
    · have : layers = [] := List.isEmpty_iff.mp hnil
      simp [this, sortLayersDesc, sortDescBy]
  · obtain ⟨gs, hok, hflat, hne, hbound, _, hchain⟩ :=
      packGo_spec limit (sortLayersDesc layers) [] 0 (by simp [heightSum_nil])
        (le_of_lt hpos)
        (fun l hl => hall l (mem_sortDescBy.mp hl))
    refine ⟨gs, ?_, by simpa using hflat, hne, hbound, hchain⟩
    simp [_pack_layers, hnil, hok]

/-- Witness for C1: three fragments of heights 100, 100, 50 against
limit 180 pack into the groupings [100] and [100, 50]. -/
theorem pack_layers_next_fit_witness :
    (0 : ℚ) < 180 ∧
    (∀ l ∈ [Layer.mk "W" 1 100, Layer.mk "W" 1 100, Layer.mk "W" 1 50],
      l.layer_height_cm ≤ 180) ∧
    (∃ gs, _pack_layers [Layer.mk "W" 1 100, Layer.mk "W" 1 100, Layer.mk "W" 1 50]
        180 = .ok gs ∧
      gs.flatten = sortLayersDesc
        [Layer.mk "W" 1 100, Layer.mk "W" 1 100, Layer.mk "W" 1 50] ∧
      (∀ g ∈ gs, g ≠ []) ∧
      (∀ g ∈ gs, heightSum g ≤ 180) ∧
      gs.Chain' (fun g g' => ∀ x ∈ g'.head?,
        (180 : ℚ) < heightSum g + x.layer_height_cm)) :=
  ⟨by norm_num,
   by intro l hl; fin_cases hl <;> norm_num,
   pack_layers_next_fit _ 180 (by norm_num)
     (by intro l hl; fin_cases hl <;> norm_num)⟩

/-- C8: the descending-height sort used by _pack_layers is stable: for
every height class, the fragments of that height appear in the sorted
output exactly as they appear in the input. -/
theorem sort_layers_stable (l : List Layer) (q : ℚ) :
    (sortLayersDesc l).filter (fun a => decide (a.layer_height_cm = q)) =
      l.filter (fun a => decide (a.layer_height_cm = q)) := by
  have := filter_sort_fold q l [] (by simp)
  simpa [sortLayersDesc, sortDescBy] using this

/-- C3: for a plan with a positive remainder (as the source produces:
remainder below capacity, positive cartons per layer, positive carton
height, layers_per_pallet the floor of limit over carton height), the
greedy packer applied to the plan's own layer fragments in isolation
yields exactly one grouping, and the dedicated-mode remainder pallet's
goods height, ceil(remainder / cartons_per_layer) x carton height,
equals that grouping's summed height. -/
theorem dedicated_remainder_matches_packer (pallet : PalletSpec)
    (plan : ProductPlan) (limit : ℚ)
    (hrem : 0 < plan.remainder_cartons)
    (hlt : plan.remainder_cartons <
      plan.orientation.cartons_per_layer * plan.layers_per_pallet)
    (hper : 0 < plan.orientation.cartons_per_layer)
    (hh : 0 < plan.product.carton_height_cm)
    (hlpp : plan.layers_per_pallet = ⌊limit / plan.product.carton_height_cm⌋) :
    ∃ g, _pack_layers (_build_layers plan) limit = .ok [g] ∧
      (remainderPalletDetails pallet plan).map PalletDetail.goods_height_cm =
        [heightSum g] := by
  have hb0 : (0 : ℚ) < (plan.orientation.cartons_per_layer : ℚ) := by
    exact_mod_cast hper
  have hlppPos : 0 < plan.layers_per_pallet := by
    by_contra hc
    push_neg at hc
    nlinarith [hrem, hlt, hper]
  have hF : ∀ l ∈ _build_layers plan,
      l.layer_height_cm = plan.product.carton_height_cm :=
    fun _ hl => build_layers_height hl
  have hlen : ((_build_layers plan).length : ℤ) =
      ⌈(plan.remainder_cartons : ℚ) / (plan.orientation.cartons_per_layer : ℚ)⌉ := by
    rw [ceil_div_fdiv _ _ hper]
    unfold _build_layers
    rw [if_neg (by omega)]
    have hq_nonneg : 0 ≤ plan.remainder_cartons.fdiv plan.orientation.cartons_per_layer := by
      rw [Int.fdiv_eq_ediv _ (le_of_lt hper)]
      exact Int.ediv_nonneg (le_of_lt hrem) (le_of_lt hper)
    by_cases hm : plan.remainder_cartons.fmod plan.orientation.cartons_per_layer = 0
    · simp [hm, List.length_append, List.length_replicate,
        Int.toNat_of_nonneg hq_nonneg]
    · simp [hm, List.length_append, List.length_replicate,
        Int.toNat_of_nonneg hq_nonneg]
  have hceil_pos : 0 < ⌈(plan.remainder_cartons : ℚ) /
      (plan.orientation.cartons_per_layer : ℚ)⌉ := by
    apply Int.ceil_pos.mpr
    apply div_pos _ hb0
    exact_mod_cast hrem
  have hFne : _build_layers plan ≠ [] := by
    intro hc
    rw [hc] at hlen
    simp at hlen
    omega
  have hceil_le : ⌈(plan.remainder_cartons : ℚ) /
      (plan.orientation.cartons_per_layer : ℚ)⌉ ≤ plan.layers_per_pallet := by
    apply Int.ceil_le.mpr
    rw [div_le_iff₀ hb0]
    have : (plan.remainder_cartons : ℚ) ≤
        (plan.orientation.cartons_per_layer : ℚ) * (plan.layers_per_pallet : ℚ) := by
      exact_mod_cast le_of_lt hlt
    linarith [this]
  have hsumF : heightSum (_build_layers plan) =
      ((_build_layers plan).length : ℚ) * plan.product.carton_height_cm :=
    heightSum_const _ hF
  have hlpp_le : (plan.layers_per_pallet : ℚ) * plan.product.carton_height_cm ≤ limit := by
    have hfl : (plan.layers_per_pallet : ℚ) ≤ limit / plan.product.carton_height_cm := by
      rw [hlpp]
      exact Int.floor_le _
    calc (plan.layers_per_pallet : ℚ) * plan.product.carton_height_cm
        ≤ (limit / plan.product.carton_height_cm) * plan.product.carton_height_cm :=
          mul_le_mul_of_nonneg_right hfl (le_of_lt hh)
      _ = limit := div_mul_cancel₀ limit (ne_of_gt hh)
  have htot : heightSum (_build_layers plan) ≤ limit := by
    rw [hsumF]
    have hcast : ((_build_layers plan).length : ℚ) ≤ (plan.layers_per_pallet : ℚ) := by
      have : ((_build_layers plan).length : ℤ) ≤ plan.layers_per_pallet := by
        rw [hlen]; exact hceil_le
      exact_mod_cast this
    calc ((_build_layers plan).length : ℚ) * plan.product.carton_height_cm
        ≤ (plan.layers_per_pallet : ℚ) * plan.product.carton_height_cm :=
          mul_le_mul_of_nonneg_right hcast (le_of_lt hh)
      _ ≤ limit := hlpp_le
  have hsort : sortLayersDesc (_build_layers plan) = _build_layers plan := by
    unfold sortLayersDesc sortDescBy
    simpa using sortLayersDesc_const (_build_layers plan) [] hF (by simp)
  have hpack : _pack_layers (_build_layers plan) limit = .ok [_build_layers plan] := by
    unfold _pack_layers
    rw [if_neg (by simpa [List.isEmpty_iff] using hFne), hsort]
    rw [packGo_all_fit limit (_build_layers plan) [] 0 (by simp [heightSum_nil])
      le_rfl (fun l hl => by rw [hF l hl]; exact hh)
      (by rw [heightSum_nil]; linarith [htot])]
    simp [List.isEmpty_iff, hFne]
  refine ⟨_build_layers plan, hpack, ?_⟩
  unfold remainderPalletDetails
  rw [if_neg (by omega)]
  simp only [List.map_cons, List.map_nil, List.cons.injEq, and_true]
  rw [hsumF, ← hlen]
  push_cast
  ring

/-- Witness for C3: scenario product B in isolation (remainder 22, 4 per
layer, height 20, limit 180, 9 layers per pallet) packs into one
grouping of height 120 = ceil(22/4) x 20, matching the dedicated
remainder pallet's goods height. -/
theorem dedicated_remainder_matches_packer_witness :
    (0 : ℤ) < examplePlanB.remainder_cartons ∧
    examplePlanB.remainder_cartons <
      examplePlanB.orientation.cartons_per_layer * examplePlanB.layers_per_pallet ∧
    (0 : ℤ) < examplePlanB.orientation.cartons_per_layer ∧
    (0 : ℚ) < examplePlanB.product.carton_height_cm ∧
    examplePlanB.layers_per_pallet =
      ⌊(180 : ℚ) / examplePlanB.product.carton_height_cm⌋ ∧
    (∃ g, _pack_layers (_build_layers examplePlanB) 180 = .ok [g] ∧
      (remainderPalletDetails examplePallet examplePlanB).map
        PalletDetail.goods_height_cm = [heightSum g]) := by
  refine ⟨by norm_num [examplePlanB], by norm_num [examplePlanB],
    by norm_num [examplePlanB], by norm_num [examplePlanB, exampleProdB],
    by norm_num [examplePlanB, exampleProdB], ?_⟩
  exact dedicated_remainder_matches_packer examplePallet examplePlanB 180
    (by norm_num [examplePlanB]) (by norm_num [examplePlanB])
    (by norm_num [examplePlanB]) (by norm_num [examplePlanB, exampleProdB])
    (by norm_num [examplePlanB, exampleProdB])

/-- Counterexample to C2: a well-typed raw entry whose order_quantity_pcs
is 0 — not a positive integer — is accepted by the Input Normalizer
without any validation error, contradicting the claim that it fails. -/
theorem load_products_accepts_zero_quantity :
    _load_products [rawZeroQuantity] =
      .ok [⟨"999-zero", 0, 10, 10, 10, 10⟩] := rfl

/-- C2 amended: the Input Normalizer performs no positivity validation.
For every raw entry whose four fields are present and well-typed — any
string name, any integers for order quantity and pieces per carton (zero
and negatives included), any rationals for the three dimensions —
loading succeeds and returns exactly those values. -/
theorem load_products_no_positivity_check (name : String) (oq ppc : ℤ)
    (L W H : ℚ) :
    _load_products [mkRawProduct name oq ppc L W H] =
      .ok [⟨name, oq, ppc, L, W, H⟩] := rfl

/-- C4 amended: _best_orientation considers exactly the two axis-swapped
candidates, discards those with nonpositive cartons_per_layer, fails
exactly when both are discarded, returns the sole surviving candidate
otherwise, and between two surviving candidates returns the one with the
strictly larger key (cartons_per_layer, then cartons_along_length, then
cartons_along_width); when the whole key ties, the stable sort returns
the original (L, W) candidate. -/
theorem best_orientation_behavior (p : ProductSpec) (pal : PalletSpec) :
    (¬ 0 < (orientationCandidate pal p.carton_length_cm p.carton_width_cm).cartons_per_layer →
     ¬ 0 < (orientationCandidate pal p.carton_width_cm p.carton_length_cm).cartons_per_layer →
      _best_orientation p pal = .error (.cannotFitFootprint p.name)) ∧
    (0 < (orientationCandidate pal p.carton_length_cm p.carton_width_cm).cartons_per_layer →
     ¬ 0 < (orientationCandidate pal p.carton_width_cm p.carton_length_cm).cartons_per_layer →
      _best_orientation p pal =
        .ok (orientationCandidate pal p.carton_length_cm p.carton_width_cm)) ∧
    (¬ 0 < (orientationCandidate pal p.carton_length_cm p.carton_width_cm).cartons_per_layer →
     0 < (orientationCandidate pal p.carton_width_cm p.carton_length_cm).cartons_per_layer →
      _best_orientation p pal =
        .ok (orientationCandidate pal p.carton_width_cm p.carton_length_cm)) ∧
    (0 < (orientationCandidate pal p.carton_length_cm p.carton_width_cm).cartons_per_layer →
     0 < (orientationCandidate pal p.carton_width_cm p.carton_length_cm).cartons_per_layer →
     ltOrientation (orientationCandidate pal p.carton_length_cm p.carton_width_cm)
       (orientationCandidate pal p.carton_width_cm p.carton_length_cm) = true →
      _best_orientation p pal =
        .ok (orientationCandidate pal p.carton_width_cm p.carton_length_cm)) ∧
    (0 < (orientationCandidate pal p.carton_length_cm p.carton_width_cm).cartons_per_layer →
     0 < (orientationCandidate pal p.carton_width_cm p.carton_length_cm).cartons_per_layer →
     ltOrientation (orientationCandidate pal p.carton_length_cm p.carton_width_cm)
       (orientationCandidate pal p.carton_width_cm p.carton_length_cm) = false →
      _best_orientation p pal =
        .ok (orientationCandidate pal p.carton_length_cm p.carton_width_cm)) := by
  refine ⟨?_, ?_, ?_, ?_, ?_⟩ <;> intro h1 h2
  · unfold _best_orientation
    simp [List.filter, h1, h2, sortDescBy]
  · unfold _best_orientation
    simp [List.filter, h1, h2, sortDescBy, insertDescBy]
  · unfold _best_orientation
    simp [List.filter, h1, h2, sortDescBy, insertDescBy]
  · intro h3
    unfold _best_orientation
    simp [List.filter, h1, h2, sortDescBy, insertDescBy, h3]
  · intro h3
    unfold _best_orientation
    simp [List.filter, h1, h2, sortDescBy, insertDescBy, h3]

/-- Counterexample to C4: a 3 x 13/5 carton on a 10 x 10 pallet.  Both
orientations survive and tie on all three key components — so the
claim's tie-break rules do not determine the result — yet the two
candidates differ; the source returns the first, (L, W), by stability of
the sort. -/
theorem best_orientation_tie_counterexample :
    _best_orientation tieProduct tiePallet =
      .ok (orientationCandidate tiePallet 3 (13/5)) ∧
    orientationCandidate tiePallet (13/5) 3 ≠ orientationCandidate tiePallet 3 (13/5) ∧
    0 < (orientationCandidate tiePallet (13/5) 3).cartons_per_layer ∧
    (orientationCandidate tiePallet (13/5) 3).cartons_per_layer =
      (orientationCandidate tiePallet 3 (13/5)).cartons_per_layer ∧
    (orientationCandidate tiePallet (13/5) 3).cartons_along_length =
      (orientationCandidate tiePallet 3 (13/5)).cartons_along_length ∧
    (orientationCandidate tiePallet (13/5) 3).cartons_along_width =
      (orientationCandidate tiePallet 3 (13/5)).cartons_along_width := by
  have hfl : (⌊(10 : ℚ) / 3⌋ : ℤ) = 3 := by norm_num
  have hfw : (⌊(10 : ℚ) / (13/5)⌋ : ℤ) = 3 := by
    rw [show (10 : ℚ) / (13/5) = 50/13 by norm_num]
    norm_num
  refine ⟨?_, ?_, ?_, ?_, ?_, ?_⟩
  · norm_num [_best_orientation, tieProduct, tiePallet, orientationCandidate,
      hfl, hfw, List.filter, sortDescBy, insertDescBy, ltOrientation]
  · norm_num [orientationCandidate, tiePallet]
  · norm_num [orientationCandidate, tiePallet, hfl, hfw]
  · norm_num [orientationCandidate, tiePallet, hfl, hfw]
  · norm_num [orientationCandidate, tiePallet, hfl, hfw]
  · norm_num [orientationCandidate, tiePallet, hfl, hfw]

/-- Witness for the amended C4: scenario product B on the scenario
pallet has both candidates surviving with per-layer 4; the key tie on
cartons_per_layer is broken by cartons_along_length (1 versus 4), and
the axis-swapped candidate is returned. -/
theorem best_orientation_behavior_witness :
    0 < (orientationCandidate examplePallet exampleProdB.carton_length_cm
      exampleProdB.carton_width_cm).cartons_per_layer ∧
    0 < (orientationCandidate examplePallet exampleProdB.carton_width_cm
      exampleProdB.carton_length_cm).cartons_per_layer ∧
    ltOrientation
      (orientationCandidate examplePallet exampleProdB.carton_length_cm
        exampleProdB.carton_width_cm)
      (orientationCandidate examplePallet exampleProdB.carton_width_cm
        exampleProdB.carton_length_cm) = true ∧
    _best_orientation exampleProdB examplePallet =
      .ok (orientationCandidate examplePallet exampleProdB.carton_width_cm
        exampleProdB.carton_length_cm) := by
  have h1 : 0 < (orientationCandidate examplePallet exampleProdB.carton_length_cm
      exampleProdB.carton_width_cm).cartons_per_layer := by
    norm_num [orientationCandidate, examplePallet, exampleProdB]
  have h2 : 0 < (orientationCandidate examplePallet exampleProdB.carton_width_cm
      exampleProdB.carton_length_cm).cartons_per_layer := by
    norm_num [orientationCandidate, examplePallet, exampleProdB]
  have h3 : ltOrientation
      (orientationCandidate examplePallet exampleProdB.carton_length_cm
        exampleProdB.carton_width_cm)
      (orientationCandidate examplePallet exampleProdB.carton_width_cm
        exampleProdB.carton_length_cm) = true := by
    norm_num [ltOrientation, orientationCandidate, examplePallet, exampleProdB]
  exact ⟨h1, h2, h3,
    (best_orientation_behavior exampleProdB examplePallet).2.2.2.1 h1 h2 h3⟩

/-- C5: in every product plan of a successful calculate_palletization
run, full_pallets times cartons_per_pallet plus remainder_cartons equals
cartons_required, and cartons_required is the ceiling of order quantity
over pieces per carton. -/
theorem plan_division_invariant {data : CalculationInput}
    {res : CalculationResult} (h : calculate_palletization data = .ok res)
    (plan : ProductPlan) (hplan : plan ∈ res.product_plans) :
    plan.full_pallets * plan.cartons_per_pallet + plan.remainder_cartons =
      plan.product.cartons_required ∧
    plan.product.cartons_required =
      ⌈(plan.product.order_quantity_pcs : ℚ) / (plan.product.pcs_per_carton : ℚ)⌉ := by
  obtain ⟨products, pallet, ch, _, _, _, hcore⟩ := calculate_ok h
  obtain ⟨limit, phase, _, hpp, hplans, _, _, _, _, _⟩ := calcCore_ok hcore
  rw [hplans] at hplan
  obtain ⟨_, _, _, _, _, hfull, hrem⟩ :=
    (planProducts_spec pallet limit data.allow_mixed_remainders products phase
      hpp).2.2.2.1 plan hplan
  refine ⟨?_, rfl⟩
  rw [hfull, hrem]
  linarith [Int.fdiv_add_fmod plan.product.cartons_required plan.cartons_per_pallet,
    mul_comm plan.cartons_per_pallet
      (plan.product.cartons_required.fdiv plan.cartons_per_pallet)]

/-- Witness for C5: the scenario run with mixing, at product A's plan
(1 x 72 + 8 = 80 = ceil(800/10)). -/
theorem plan_division_invariant_witness :
    calculate_palletization exampleMixedInput = .ok exampleMixedResult ∧
    examplePlanA ∈ exampleMixedResult.product_plans ∧
    (examplePlanA.full_pallets * examplePlanA.cartons_per_pallet +
        examplePlanA.remainder_cartons = examplePlanA.product.cartons_required ∧
      examplePlanA.product.cartons_required =
        ⌈(examplePlanA.product.order_quantity_pcs : ℚ) /
          (examplePlanA.product.pcs_per_carton : ℚ)⌉) :=
  ⟨exampleCalculateMixed, by simp [exampleMixedResult],
    plan_division_invariant exampleCalculateMixed examplePlanA
      (by simp [exampleMixedResult])⟩

/-- C6: within calculate_palletization the packer's per-fragment height
check is unreachable.  Whenever the goods height limit and the
per-product loop (mixing enabled) succeed, every planned product has at
least one layer per pallet and carton height within the limit, every
pooled fragment's height is within the limit, and _pack_layers succeeds
(it never raises the "layer height exceeds limit" error). -/
theorem packer_height_check_unreachable {pallet : PalletSpec} {ch limit : ℚ}
    {products : List ProductSpec} {phase : PlanPhase}
    (hlim : pallet.goods_height_limit ch = .ok limit)
    (hplan : planProducts pallet limit true products = .ok phase) :
    (∀ plan ∈ phase.product_plans,
      1 ≤ plan.layers_per_pallet ∧ plan.product.carton_height_cm ≤ limit) ∧
    (∀ l ∈ phase.remainder_layers, l.layer_height_cm ≤ limit) ∧
    ∃ gs, _pack_layers phase.remainder_layers limit = .ok gs := by
  have hLpos : 0 < limit := (goods_height_limit_ok hlim).1
  have spec := planProducts_spec pallet limit true products phase hplan
  have hplans := spec.2.2.2.1
  have hlayers := spec.2.2.2.2.1
  have hkey : ∀ plan ∈ phase.product_plans,
      1 ≤ plan.layers_per_pallet ∧ plan.product.carton_height_cm ≤ limit := by
    intro plan hp
    obtain ⟨-, hlppPos, -, hlppEq, -, -, -⟩ := hplans plan hp
    have h1 : 1 ≤ ⌊limit / plan.product.carton_height_cm⌋ := by
      rw [← hlppEq]; omega
    exact ⟨by omega, (floor_div_facts hLpos h1).2⟩
  refine ⟨hkey, ?_, ?_⟩
  · intro l hl
    obtain ⟨plan, hp, hh⟩ := hlayers l hl
    rw [hh]
    exact (hkey plan hp).2
  · by_cases hnil : phase.remainder_layers.isEmpty
    · exact ⟨[], by simp [_pack_layers, hnil]⟩
    · obtain ⟨gs, hok, -, -, -, -, -⟩ :=
        packGo_spec limit (sortLayersDesc phase.remainder_layers) [] 0
          (by simp [heightSum_nil]) (le_of_lt hLpos)
          (fun l hl => by
            obtain ⟨plan, hp, hh⟩ := hlayers l (mem_sortDescBy.mp hl)
            rw [hh]
            exact (hkey plan hp).2)
      exact ⟨gs, by simp [_pack_layers, hnil, hok]⟩

/-- Witness for C6: the scenario's goods limit and mixed-mode loop. -/
theorem packer_height_check_unreachable_witness :
    examplePallet.goods_height_limit 239 = .ok 180 ∧
    planProducts examplePallet 180 true [exampleProdA, exampleProdB] =
      .ok exampleMixedPhase ∧
    ((∀ plan ∈ exampleMixedPhase.product_plans,
        1 ≤ plan.layers_per_pallet ∧ plan.product.carton_height_cm ≤ 180) ∧
      (∀ l ∈ exampleMixedPhase.remainder_layers, l.layer_height_cm ≤ 180) ∧
      ∃ gs, _pack_layers exampleMixedPhase.remainder_layers 180 = .ok gs) :=
  ⟨exampleGoodsLimit, examplePlanPhaseMixed,
    packer_height_check_unreachable exampleGoodsLimit examplePlanPhaseMixed⟩

/-- C9: in every successful run, total_pallets is the sum of the counts
of the emitted details, volume_with_pallets_cbm is the sum over details
of count x (pallet_length/100 x pallet_width/100) x (total_height/100),
and both cubic-feet values are the CBM values times exactly 35.3146667. -/
theorem aggregator_totals {data : CalculationInput} {res : CalculationResult}
    {pallet : PalletSpec} (h : calculate_palletization data = .ok res)
    (hpal : _load_pallet data.pallet = .ok pallet) :
    res.total_pallets = (res.pallets.map PalletDetail.count).sum ∧
    res.volume_with_pallets_cbm = (res.pallets.map (fun d =>
      (d.count : ℚ) * (pallet.length_cm / 100 * (pallet.width_cm / 100)) *
        (d.total_height_cm / 100))).sum ∧
    res.volume_with_pallets_cuft = res.volume_with_pallets_cbm * (35.3146667 : ℚ) ∧
    res.volume_without_pallets_cuft =
      res.volume_without_pallets_cbm * (35.3146667 : ℚ) := by
  obtain ⟨products, pallet', ch, _, hpal', _, hcore⟩ := calculate_ok h
  have hpe : pallet' = pallet := by
    rw [hpal] at hpal'
    exact (Except.ok.inj hpal').symm
  subst hpe
  obtain ⟨limit, phase, _, _, _, _, _, htp, hvw, _⟩ := calcCore_ok hcore
  refine ⟨by rw [htp]; rfl, by rw [hvw]; rfl, ?_, ?_⟩
  · unfold CalculationResult.volume_with_pallets_cuft CUFT_PER_CBM
    norm_num
  · unfold CalculationResult.volume_without_pallets_cuft CUFT_PER_CBM
    norm_num

/-- Witness for C9: the scenario run with mixing (3 pallets,
6.867 CBM). -/
theorem aggregator_totals_witness :
    calculate_palletization exampleMixedInput = .ok exampleMixedResult ∧
    _load_pallet exampleMixedInput.pallet = .ok examplePallet ∧
    (exampleMixedResult.total_pallets =
        (exampleMixedResult.pallets.map PalletDetail.count).sum ∧
      exampleMixedResult.volume_with_pallets_cbm =
        (exampleMixedResult.pallets.map (fun d =>
          (d.count : ℚ) * (examplePallet.length_cm / 100 *
            (examplePallet.width_cm / 100)) * (d.total_height_cm / 100))).sum ∧
      exampleMixedResult.volume_with_pallets_cuft =
        exampleMixedResult.volume_with_pallets_cbm * (35.3146667 : ℚ) ∧
      exampleMixedResult.volume_without_pallets_cuft =
        exampleMixedResult.volume_without_pallets_cbm * (35.3146667 : ℚ)) :=
  ⟨exampleCalculateMixed, exampleLoadPallet,
    aggregator_totals exampleCalculateMixed exampleLoadPallet⟩

/-- C10: carton conservation.  In every successful run, in either
remainder mode, the emitted pallet details carry (count times summed
cartons_by_product) exactly total_cartons, which is the sum of
cartons_required over the loaded products. -/
theorem carton_conservation {data : CalculationInput} {res : CalculationResult}
    {products : List ProductSpec} (h : calculate_palletization data = .ok res)
    (hp : _load_products data.products = .ok products) :
    palletsCartons res.pallets = res.total_cartons ∧
    res.total_cartons = (products.map ProductSpec.cartons_required).sum := by
  obtain ⟨products', pallet, ch, hp', hpal, hch, hcore⟩ := calculate_ok h
  have hpe : products' = products := by
    rw [hp] at hp'
    exact (Except.ok.inj hp').symm
  subst hpe
  obtain ⟨limit, phase, hg, hplan, hplans, htc, _, _, _, hcase⟩ := calcCore_ok hcore
  obtain ⟨hmap, hsum, hbal, _, _, hnomix⟩ :=
    planProducts_spec pallet limit data.allow_mixed_remainders products' phase hplan
  constructor
  · rcases hcase with ⟨hm, hne, packed, hpk, hpallets⟩ | ⟨hmode, hpallets⟩
    · rw [hpallets, palletsCartons_append, palletsCartons_mixedDetails]
      have hjoin : packed.flatten = sortLayersDesc phase.remainder_layers := by
        unfold _pack_layers at hpk
        rw [if_neg (by simpa [List.isEmpty_iff] using hne)] at hpk
        simpa using packGo_join limit _ [] 0 packed hpk
      rw [hjoin, layersCartons_sort, htc]
      linarith [hbal]
    · have hl0 : layersCartons phase.remainder_layers = 0 := by
        rcases hmode with hm | hm
        · rw [hnomix hm]; rfl
        · rw [hm]; rfl
      rw [hpallets, htc]
      linarith [hbal, hl0]
  · rw [htc, hsum, ← hmap, List.map_map]
    rfl

/-- Witness for C10: the scenario run with mixing carries
72 + 36 + (8 + 22) = 138 = 80 + 58 cartons. -/
theorem carton_conservation_witness :
    calculate_palletization exampleMixedInput = .ok exampleMixedResult ∧
    _load_products exampleMixedInput.products = .ok [exampleProdA, exampleProdB] ∧
    (palletsCartons exampleMixedResult.pallets = exampleMixedResult.total_cartons ∧
      exampleMixedResult.total_cartons =
        ([exampleProdA, exampleProdB].map ProductSpec.cartons_required).sum) :=
  ⟨exampleCalculateMixed, exampleLoadProducts,
    carton_conservation exampleCalculateMixed exampleLoadProducts⟩

/-- C7: the scenario inputs (999-00031: qty 800, 10 per carton,
56 x 26 x 20; 999-00166: qty 580, 10 per carton, 97 x 26 x 20; pallet
120 x 105 x 195 with default base 15; container 20CY).  With mixing:
3 pallets, with-pallet volume exactly 6.867 CBM, goods-only volume
exactly 5.25512 CBM, plans (1 full, 8 remainder) and (1 full, 22
remainder).  Without mixing: 4 pallets, with both products' dedicated
remainder pallet labels emitted. -/
theorem scenario_example_results :
    (∃ res, calculate_palletization exampleMixedInput = .ok res ∧
      res.total_pallets = 3 ∧
      res.volume_with_pallets_cbm = 6867/1000 ∧
      res.volume_without_pallets_cbm = 525512/100000 ∧
      res.product_plans.map (fun p => (p.full_pallets, p.remainder_cartons)) =
        [(1, 8), (1, 22)]) ∧
    (∃ res, calculate_palletization exampleNoMixInput = .ok res ∧
      res.total_pallets = 4 ∧
      "999-00031 remainder pallet" ∈ res.pallets.map PalletDetail.label ∧
      "999-00166 remainder pallet" ∈ res.pallets.map PalletDetail.label) := by
  constructor
  · exact ⟨exampleMixedResult, exampleCalculateMixed, rfl, rfl, rfl, rfl⟩
  · refine ⟨exampleNoMixResult, exampleCalculateNoMix, rfl, ?_, ?_⟩
    · simp [exampleNoMixResult, exampleRemA, exampleFullA, exampleFullB, exampleRemB]
    · simp [exampleNoMixResult, exampleRemA, exampleFullA, exampleFullB, exampleRemB]
